import Mathlib

/-!
# Battleship relay server: registry, matchmaking and turn relay

A shallow embedding of `src/server.c`.

* Pointers are natural numbers.  A `client_t *` is an address into `Server.heap`, a
  `game_t *` an address into `Server.games`; `NULL` is `none`.  `malloc` hands out the
  next unused address (`Server.nclients`, `Server.ngames`), and whether it succeeds is
  an input of the function that calls it.  Memory that the program never initialises
  keeps whatever the heap held before.  `free` is not represented: no address is handed
  out twice, so an address names one connection for good.
* `clients[MAX_CLIENTS]` is the list `Server.clients`; the `for` loops over it are
  recursions over that list, in index order.
* `write(fd, buf, n)` appends `(fd, bytes)` to the log `Server.out`.  `read` is given
  the answer of the environment: `none` for an error, `some bytes` for the bytes that
  are pending on the socket.
* Bytes are natural numbers; a C string ends at the first byte `0`.
* Mutexes and condition variables carry no data and are not represented: every
  function below is one critical section or one iteration of a loop, run to completion.
  `printf` and `perror` write to the server's terminal only and are left out.
* Of `handle_read` the `while` loop is embedded, one pass at a time
  (`handle_read_loop`), with the thread's local variables as arguments.  The
  `remove_client` call of its clean-up is the event `Event.depart`.
-/

namespace Battleship

/-! ## Constants and records -/

/-- Size of the relay buffer, `#define BUF_SIZE 1024`. -/
def BUF_SIZE : Nat := 1024

/-- Capacity of the registry table, `#define MAX_CLIENTS 100`. -/
def MAX_CLIENTS : Nat := 100

/-- Record `struct client_t` (the two thread handles carry no data used here). -/
structure client_t where
  sockfd : Int
  game_ready : Int
  player_number : Int
  game : Option Nat
  deriving DecidableEq

/-- Record `struct game_t` (mutex and condition variable are not represented). -/
structure game_t where
  player1 : Nat
  player2 : Nat
  turn : Int
  game_over : Int
  deriving DecidableEq

/-- Memory write: the memory `m` with the cell at address `a` replaced by `v`. -/
def store {α : Type} (m : Nat → α) (a : Nat) (v : α) : Nat → α :=
  fun x => if x = a then v else m x

/-- State of the server process: the table `clients[]`, the client records, the game
records, the two allocation counters and the log of socket writes. -/
structure Server where
  clients : List (Option Nat)
  heap : Nat → client_t
  games : Nat → game_t
  nclients : Nat
  ngames : Nat
  out : List (Int × List Nat)

/-! ## C strings -/

/-- Bytes of a string literal. -/
def bytes_of (s : String) : List Nat := s.toList.map Char.toNat

/-- The C string stored at the start of a buffer: its bytes before the first `0`. -/
def c_str (buf : List Nat) : List Nat := buf.takeWhile (fun b => decide (b ≠ 0))

/-- Library function `strlen`. -/
def strlen (buf : List Nat) : Nat := (c_str buf).length

/-- Search of `strstr` in the text `s`: the first offset at which `needle` starts. -/
def strstr_at (needle : List Nat) : List Nat → Option Nat
  | [] => if needle = [] then some 0 else none
  | c :: t =>
      if needle.isPrefixOf (c :: t) then some 0
      else (strstr_at needle t).map (fun i => i + 1)

/-- Library function `strstr` on C strings: `none` is the `NULL` result. -/
def strstr (haystack needle : List Nat) : Option Nat :=
  strstr_at (c_str needle) (c_str haystack)

/-! ## Registry: `add_client`, `remove_client` -/

/-- Loop of `add_client`: the first empty slot receives `cl`. -/
def add_client_loop (cl : Nat) : List (Option Nat) → List (Option Nat)
  | [] => []
  | none :: rest => some cl :: rest
  | some p :: rest => some p :: add_client_loop cl rest

/-- Function `add_client`. -/
def add_client (s : Server) (cl : Nat) : Server :=
  { s with clients := add_client_loop cl s.clients }

/-- Loop of `remove_client`: the first entry whose record has descriptor `sockfd` is
set to `NULL`, and the loop stops there. -/
def remove_client_loop (heap : Nat → client_t) (sockfd : Int) :
    List (Option Nat) → List (Option Nat)
  | [] => []
  | none :: rest => none :: remove_client_loop heap sockfd rest
  | some p :: rest =>
      if (heap p).sockfd = sockfd then none :: rest
      else some p :: remove_client_loop heap sockfd rest

/-- Function `remove_client`. -/
def remove_client (s : Server) (sockfd : Int) : Server :=
  { s with clients := remove_client_loop s.heap sockfd s.clients }

/-! ## Matchmaking: `create_game` -/

/-- Test of the scan in `create_game`:
`clients[i]->game_ready == 0 && clients[i]->sockfd != cli->sockfd`. -/
def is_waiting (heap : Nat → client_t) (sockfd : Int) (p : Nat) : Bool :=
  decide ((heap p).game_ready = 0) && decide ((heap p).sockfd ≠ sockfd)

/-- Scan of `create_game`: the first entry that passes `is_waiting`, or `NULL`. -/
def create_game_scan (heap : Nat → client_t) (sockfd : Int) :
    List (Option Nat) → Option Nat
  | [] => none
  | none :: rest => create_game_scan heap sockfd rest
  | some p :: rest =>
      if is_waiting heap sockfd p then some p else create_game_scan heap sockfd rest

/-- Text sent to both players by `create_game`. -/
def start_message : List Nat := bytes_of "Game started. Place your ships.\n"

/-- Assignment `p->game = g`. -/
def set_game (h : Nat → client_t) (p : Nat) (g : Option Nat) : Nat → client_t :=
  store h p { h p with game := g }

/-- Assignment `p->game_ready = v`. -/
def set_game_ready (h : Nat → client_t) (p : Nat) (v : Int) : Nat → client_t :=
  store h p { h p with game_ready := v }

/-- Assignment `p->player_number = v`. -/
def set_player_number (h : Nat → client_t) (p : Nat) (v : Int) : Nat → client_t :=
  store h p { h p with player_number := v }

/-- Assignment `p->sockfd = v`. -/
def set_sockfd (h : Nat → client_t) (p : Nat) (v : Int) : Nat → client_t :=
  store h p { h p with sockfd := v }

/-- Client records after the six assignments of `create_game`, in source order. -/
def pair_clients (h : Nat → client_t) (waiting_client cli g : Nat) : Nat → client_t :=
  let h1 := set_game h waiting_client (some g)
  let h2 := set_game h1 cli (some g)
  let h3 := set_game_ready h2 waiting_client 1
  let h4 := set_game_ready h3 cli 1
  let h5 := set_player_number h4 waiting_client 1
  set_player_number h5 cli 2

/-- Function `create_game`.  `malloc_ok` tells whether `malloc` returns a game record;
when it does not the function returns without any change. -/
def create_game (s : Server) (cli : Nat) (malloc_ok : Bool) : Server :=
  match create_game_scan s.heap (s.heap cli).sockfd s.clients with
  | none => s
  | some waiting_client =>
      if malloc_ok then
        let game := s.ngames
        let heap := pair_clients s.heap waiting_client cli game
        { s with
          games := store s.games game
            { player1 := waiting_client, player2 := cli, turn := 1, game_over := 0 }
          ngames := s.ngames + 1
          heap := heap
          out := s.out ++ [((heap waiting_client).sockfd, start_message),
                           ((heap cli).sockfd, start_message)] }
      else s

/-! ## Relay loop: `handle_read` -/

/-- Marker `"You lose"`. -/
def You_lose : List Nat := [89, 111, 117, 32, 108, 111, 115, 101]

/-- Marker `"You win"`. -/
def You_win : List Nat := [89, 111, 117, 32, 119, 105, 110]

/-- System call `read(fd, buffer, count)`: the return value and the buffer afterwards.
An error returns `-1`; otherwise at most `count` of the pending bytes are stored at
the start of the buffer and their number is returned. -/
def read (pending : Option (List Nat)) (buffer : List Nat) (count : Nat) :
    Int × List Nat :=
  match pending with
  | none => (-1, buffer)
  | some bytes =>
      let data := bytes.take count
      ((data.length : Int), data ++ buffer.drop data.length)

/-- What one pass through the `while` loop of `handle_read` did. -/
inductive Outcome where
  /-- The loop condition `!game->game_over` was false: the loop is left. -/
  | exited
  /-- Not this client's turn: `pthread_cond_wait`, then the loop goes on. -/
  | waited
  /-- The read returned `rcount <= 0`: the loop is left by `break`. -/
  | disconnected
  /-- A payload was read and written to the opponent; the loop goes on. -/
  | relayed
  deriving DecidableEq

/-- Whether the `while` loop of `handle_read` is left after a pass with this outcome. -/
def Outcome.leaves_loop : Outcome → Bool
  | .exited => true
  | .waited => false
  | .disconnected => true
  | .relayed => false

/-- One pass through the `while` loop of `handle_read` for the thread of `cli`, whose
local variables are `game` and `buffer`; `pending` is what its socket would deliver. -/
def handle_read_loop (s : Server) (cli game : Nat) (buffer : List Nat)
    (pending : Option (List Nat)) : Server × List Nat × Outcome :=
  let g := s.games game
  if g.game_over ≠ 0 then (s, buffer, Outcome.exited)
  else if g.turn = (s.heap cli).player_number ∧ g.game_over = 0 then
    let r := read pending buffer (BUF_SIZE - 1)
    if r.1 ≤ 0 then
      ({ s with games := store s.games game { g with game_over := 1 } }, r.2,
        Outcome.disconnected)
    else
      let buffer1 := r.2.set r.1.toNat 0
      let opponent := if (s.heap cli).player_number = 1 then g.player2 else g.player1
      let out := s.out ++ [((s.heap opponent).sockfd, buffer1.take (strlen buffer1))]
      let g1 : game_t :=
        if strstr buffer1 You_lose ≠ none ∨ strstr buffer1 You_win ≠ none then
          { g with game_over := 1 }
        else g
      let g2 : game_t :=
        { g1 with turn := if (s.heap cli).player_number = 1 then 2 else 1 }
      ({ s with games := store s.games game g2, out := out }, buffer1, Outcome.relayed)
  else (s, buffer, Outcome.waited)

/-! ## Accept loop: `main` -/

/-- Table after `memset(clients, 0, sizeof(clients))`. -/
def empty_table : List (Option Nat) := List.replicate MAX_CLIENTS none

/-- State of the server when the accept loop starts, over arbitrary initial memory. -/
def init (h0 : Nat → client_t) (g0 : Nat → game_t) : Server :=
  { clients := empty_table, heap := h0, games := g0, nclients := 0, ngames := 0,
    out := [] }

/-- One pass through the accept loop of `main` for an accepted descriptor
`client_sockfd`.  The three flags tell whether the `malloc` of the client record, the
`pthread_create` of its reader and the `malloc` inside `create_game` succeed. -/
def main_loop (s : Server) (client_sockfd : Int) (cli_ok thread_ok game_ok : Bool) :
    Server :=
  if client_sockfd = -1 then s
  else if cli_ok then
    let cli := s.nclients
    let h1 := set_sockfd s.heap cli client_sockfd
    let h2 := set_game_ready h1 cli 0
    let h3 := set_game h2 cli none
    let s1 := add_client { s with heap := h3, nclients := s.nclients + 1 } cli
    if thread_ok then create_game s1 cli game_ok
    else remove_client s1 (s1.heap cli).sockfd
  else s

/-- Something the server does to the registry: one pass of the accept loop, or the
`remove_client` call made by a reader thread that leaves its loop. -/
inductive Event where
  | arrive (client_sockfd : Int) (cli_ok thread_ok game_ok : Bool)
  | depart (sockfd : Int)

/-- Effect of one event. -/
def step (s : Server) : Event → Server
  | .arrive fd cli_ok thread_ok game_ok => main_loop s fd cli_ok thread_ok game_ok
  | .depart fd => remove_client s fd

/-- Effect of a sequence of events, oldest first. -/
def run (s : Server) (evs : List Event) : Server := evs.foldl step s

/-- Test: the table entry `e` is a record whose descriptor is `sockfd`. -/
def has_fd (heap : Nat → client_t) (sockfd : Int) (e : Option Nat) : Bool :=
  match e with
  | none => false
  | some p => decide ((heap p).sockfd = sockfd)

/-- The client at address `p` is one of the two players of the game at address `g`. -/
def is_player (s : Server) (g p : Nat) : Prop :=
  (s.games g).player1 = p ∨ (s.games g).player2 = p

/-- Invariant of the registry and the games: table entries and players are allocated
records, the two players of a game differ and have `game_ready == 1`, no record plays
in two games, and a record has no game exactly when its `game_ready` is 0. -/
structure Inv (s : Server) : Prop where
  table_lt : ∀ p, some p ∈ s.clients → p < s.nclients
  players_lt : ∀ g, g < s.ngames →
    (s.games g).player1 < s.nclients ∧ (s.games g).player2 < s.nclients
  players_ne : ∀ g, g < s.ngames → (s.games g).player1 ≠ (s.games g).player2
  players_ready : ∀ g p, g < s.ngames → is_player s g p → (s.heap p).game_ready = 1
  one_game : ∀ g g2 p, g < s.ngames → g2 < s.ngames →
    is_player s g p → is_player s g2 p → g = g2
  game_iff : ∀ p, p < s.nclients → ((s.heap p).game = none ↔ (s.heap p).game_ready = 0)

/-- Events of clients that arrive with the given descriptors, every allocation and
thread creation succeeding. -/
def arrivals (fds : List Int) : List Event :=
  fds.map (fun fd => Event.arrive fd true true true)

/-- Shape of the state after the clients with descriptors `fds` have arrived, in this
order, into the empty registry: the `i`-th of them is the record at address `i`, the
records are paired two by two in order of arrival, and the last one of an odd number
waits. -/
structure Arrived (fds : List Int) (s : Server) : Prop where
  nclients : s.nclients = fds.length
  ngames : s.ngames = fds.length / 2
  table : s.clients
    = (List.range fds.length).map some ++ List.replicate (MAX_CLIENTS - fds.length) none
  fd : ∀ p, p < fds.length → some (s.heap p).sockfd = fds[p]?
  paired : ∀ p, p < 2 * (fds.length / 2) →
    (s.heap p).game_ready = 1 ∧ (s.heap p).player_number = ((p % 2 : Nat) : Int) + 1 ∧
      (s.heap p).game = some (p / 2)
  alone : ∀ p, 2 * (fds.length / 2) ≤ p → p < fds.length →
    (s.heap p).game_ready = 0 ∧ (s.heap p).game = none
  games : ∀ g, g < fds.length / 2 → s.games g = ⟨2 * g, 2 * g + 1, 1, 0⟩

/-- State of the server after the first `k` clients of `fds` have arrived into the
empty registry. -/
def after_arrivals (h0 : Nat → client_t) (g0 : Nat → game_t) (fds : List Int) (k : Nat) :
    Server :=
  run (init h0 g0) (arrivals (fds.take k))

/-- The list names `a`, `b`, `a`, `b`, ... in turn, starting with `a`. -/
def alternating (a b : Nat) : List Nat → Prop
  | [] => True
  | x :: rest => x = a ∧ alternating b a rest

/-- Relays of one session under a schedule.  The session is the game at address `game`
with the reader threads of the clients `c1` and `c2`, whose buffers are `b1` and `b2`.
Each item of the schedule lets one of the two threads (`false` for `c1`, `true` for
`c2`) make one pass through its loop, with the data that its socket would deliver.
The result lists, in order, the clients whose pass relayed a payload. -/
def relay_trace (game c1 c2 : Nat) :
    List (Bool × Option (List Nat)) → Server → List Nat → List Nat → List Nat
  | [], _, _, _ => []
  | (who, pending) :: rest, s, b1, b2 =>
      let cli := if who then c2 else c1
      let r := handle_read_loop s cli game (if who then b2 else b1) pending
      let later := relay_trace game c1 c2 rest r.1 (if who then b1 else r.2.1)
        (if who then r.2.1 else b2)
      if r.2.2 = Outcome.relayed then cli :: later else later

/-! ## Example states -/

/-- Example client memory: the record at address `p` has descriptor `p + 4` and is
unmatched. -/
def example_heap : Nat → client_t := fun p => ⟨(p : Int) + 4, 0, 0, none⟩

/-- Example game memory, all zero. -/
def example_games : Nat → game_t := fun _ => ⟨0, 0, 0, 0⟩

/-- Example state: the clients at addresses 0 and 1 (descriptors 4 and 5) are
registered and unmatched, the other 98 slots are empty.  This is the state in which
the accept loop calls `create_game` for the second of two clients. -/
def two_waiting : Server :=
  { clients := some 0 :: some 1 :: List.replicate 98 none, heap := example_heap,
    games := example_games, nclients := 2, ngames := 0, out := [] }

/-- Example state with one descriptor in two entries: clients arrive with the
descriptors 4 and 5, the first departs, and a new connection arrives that is given
descriptor 5 again, as happens when the reader of the second client has closed its
socket and has not yet called `remove_client`.  The table then holds the new client
(address 2) in slot 0 and the second client (address 1) in slot 1. -/
def same_fd : Server :=
  run (init example_heap example_games)
    [Event.arrive 4 true true true, Event.arrive 5 true true true, Event.depart 4,
     Event.arrive 5 true true true]

/-- Example state: 100 clients with the descriptors 4 to 103 have arrived; they are
the records at addresses 0 to 99. -/
def hundred_arrived : Server :=
  run (init example_heap example_games)
    (arrivals ((List.range 100).map (fun n => (n : Int) + 4)))

/-- Example state: after `hundred_arrived`, two more clients arrive, with the
descriptors 104 and 105; they are the records at addresses 100 and 101. -/
def two_more_arrived : Server :=
  run hundred_arrived [Event.arrive 104 true true true, Event.arrive 105 true true true]

/-- Example events: two arrivals, the departure of the first client, and two more
arrivals, the last of which reuses descriptor 4. -/
def example_events : List Event :=
  [Event.arrive 4 true true true, Event.arrive 5 true true true, Event.depart 4,
   Event.arrive 6 true true true, Event.arrive 4 true true true]

/-- Example state: the session that `create_game` starts in `two_waiting` for the
client at address 1.  The client at address 0 (descriptor 4) is player 1, the client at
address 1 (descriptor 5) is player 2, their game is at address 0. -/
def playing : Server := create_game two_waiting 1 true

/-- Example relay buffer: 1024 bytes `120`. -/
def example_buffer : List Nat := List.replicate 1024 120

/-- Example schedule for the example session: player 2 tries first and has to wait,
player 1 sends `"B3"`, tries again and has to wait, player 2 sends `"A1"`, player 1
sends `"You win"`, and then both threads find the game over. -/
def example_schedule : List (Bool × Option (List Nat)) :=
  [(true, some [65, 49]), (false, some [66, 51]), (false, some [67, 50]),
   (true, some [65, 49]), (false, some You_win), (true, some [68, 52]),
   (false, some [69, 53])]

/-! ## Registry lemmas -/

theorem remove_client_loop_absent (heap : Nat → client_t) (fd : Int) :
    ∀ t : List (Option Nat), t.countP (has_fd heap fd) = 0 →
      remove_client_loop heap fd t = t := by
  intro t
  induction t with
  | nil => intro _; rfl
  | cons e rest ih =>
    intro h
    rw [List.countP_cons] at h
    have h1 : rest.countP (has_fd heap fd) = 0 := by omega
    have h2 : ¬ has_fd heap fd e = true := by
      intro hc
      rw [if_pos hc] at h
      omega
    cases e with
    | none => simp [remove_client_loop, ih h1]
    | some p =>
      have h3 : ¬ (heap p).sockfd = fd := by simpa [has_fd] using h2
      simp [remove_client_loop, h3, ih h1]

theorem remove_client_loop_count (heap : Nat → client_t) (fd : Int) :
    ∀ t : List (Option Nat),
      (remove_client_loop heap fd t).countP (has_fd heap fd)
        = t.countP (has_fd heap fd) - 1 := by
  intro t
  induction t with
  | nil => rfl
  | cons e rest ih =>
    cases e with
    | none => simpa [remove_client_loop, List.countP_cons, has_fd] using ih
    | some p =>
      by_cases hp : (heap p).sockfd = fd
      · simp [remove_client_loop, List.countP_cons, has_fd, hp]
      · simpa [remove_client_loop, List.countP_cons, has_fd, hp] using ih

theorem mem_add_client_loop (cl : Nat) :
    ∀ t : List (Option Nat), none ∈ t → some cl ∈ add_client_loop cl t := by
  intro t
  induction t with
  | nil => intro h; simp at h
  | cons e rest ih =>
    intro h
    cases e with
    | none => simp [add_client_loop]
    | some p =>
      have h1 : none ∈ rest := by simpa using h
      simp [add_client_loop, ih h1]

theorem add_client_loop_full (cl : Nat) :
    ∀ t : List (Option Nat), none ∉ t → add_client_loop cl t = t := by
  intro t
  induction t with
  | nil => intro _; rfl
  | cons e rest ih =>
    intro h
    cases e with
    | none => simp at h
    | some p =>
      have h1 : none ∉ rest := by simpa using h
      simp [add_client_loop, ih h1]

theorem create_game_scan_some (heap : Nat → client_t) (fd : Int) (cl : Nat) :
    ∀ t : List (Option Nat), some cl ∈ t → is_waiting heap fd cl = true →
      ∃ w, create_game_scan heap fd t = some w := by
  intro t
  induction t with
  | nil => intro h; simp at h
  | cons e rest ih =>
    intro h hw
    cases e with
    | none =>
      have h1 : some cl ∈ rest := by simpa using h
      simpa [create_game_scan] using ih h1 hw
    | some p =>
      by_cases hp : is_waiting heap fd p = true
      · exact ⟨p, by simp [create_game_scan, hp]⟩
      · have h1 : some cl ∈ rest := by
          rcases List.mem_cons.1 h with h2 | h2
          · have h3 : cl = p := by simpa using h2
            rw [h3] at hw
            exact absurd hw hp
          · exact h2
        simpa [create_game_scan, hp] using ih h1 hw

/-- What the scan of `create_game` returns: `none` exactly when no entry passes the
test; otherwise an entry that passes it, with no passing entry before it. -/
theorem create_game_scan_spec (heap : Nat → client_t) (fd : Int) :
    ∀ t : List (Option Nat),
      match create_game_scan heap fd t with
      | none => ∀ p, some p ∈ t → is_waiting heap fd p = false
      | some w => ∃ before after, t = before ++ some w :: after ∧
          is_waiting heap fd w = true ∧
          ∀ p, some p ∈ before → is_waiting heap fd p = false := by
  intro t
  induction t with
  | nil => simp [create_game_scan]
  | cons e rest ih =>
    cases e with
    | none =>
      simp only [create_game_scan]
      cases hs : create_game_scan heap fd rest with
      | none =>
        rw [hs] at ih
        intro p hp
        exact ih p (by simpa using hp)
      | some w =>
        rw [hs] at ih
        obtain ⟨b, a, h1, h2, h3⟩ := ih
        refine ⟨none :: b, a, by simp [h1], h2, ?_⟩
        intro p hp
        exact h3 p (by simpa using hp)
    | some q =>
      by_cases hq : is_waiting heap fd q = true
      · have hs : create_game_scan heap fd (some q :: rest) = some q := by
          simp [create_game_scan, hq]
        rw [hs]
        exact ⟨[], rest, rfl, hq, by simp⟩
      · have hs' : create_game_scan heap fd (some q :: rest)
            = create_game_scan heap fd rest := by
          simp [create_game_scan, hq]
        rw [hs']
        have hq' : is_waiting heap fd q = false := by simpa using hq
        cases hs : create_game_scan heap fd rest with
        | none =>
          rw [hs] at ih
          intro p hp
          rcases List.mem_cons.1 hp with h2 | h2
          · have h3 : p = q := by simpa using h2
            rw [h3]; exact hq'
          · exact ih p h2
        | some w =>
          rw [hs] at ih
          obtain ⟨b, a, h1, h2, h3⟩ := ih
          refine ⟨some q :: b, a, by simp [h1], h2, ?_⟩
          intro p hp
          rcases List.mem_cons.1 hp with h4 | h4
          · have h5 : p = q := by simpa using h4
            rw [h5]; exact hq'
          · exact h3 p h4

/-! ## Memory lemmas -/

theorem store_same {α : Type} (m : Nat → α) (a : Nat) (v : α) : store m a v a = v := by
  simp [store]

theorem store_other {α : Type} (m : Nat → α) (a b : Nat) (v : α) (h : b ≠ a) :
    store m a v b = m b := by
  simp [store, h]

theorem pair_clients_waiting (h : Nat → client_t) (w cli g : Nat) (hne : w ≠ cli) :
    pair_clients h w cli g w = ⟨(h w).sockfd, 1, 1, some g⟩ := by
  simp [pair_clients, set_game, set_game_ready, set_player_number, store, hne]

theorem pair_clients_cli (h : Nat → client_t) (w cli g : Nat) :
    pair_clients h w cli g cli = ⟨(h cli).sockfd, 1, 2, some g⟩ := by
  by_cases hne : cli = w
  · simp [pair_clients, set_game, set_game_ready, set_player_number, store, hne]
  · simp [pair_clients, set_game, set_game_ready, set_player_number, store, hne]

theorem pair_clients_other (h : Nat → client_t) (w cli g p : Nat) (hw : p ≠ w)
    (hc : p ≠ cli) : pair_clients h w cli g p = h p := by
  simp [pair_clients, set_game, set_game_ready, set_player_number, store, hw, hc]

theorem is_waiting_iff (heap : Nat → client_t) (fd : Int) (p : Nat) :
    is_waiting heap fd p = true ↔ (heap p).game_ready = 0 ∧ (heap p).sockfd ≠ fd := by
  simp [is_waiting]

theorem create_game_none (s : Server) (cli : Nat) (ok : Bool)
    (h : create_game_scan s.heap (s.heap cli).sockfd s.clients = none) :
    create_game s cli ok = s := by
  simp [create_game, h]

theorem create_game_fail (s : Server) (cli : Nat) : create_game s cli false = s := by
  unfold create_game
  cases create_game_scan s.heap (s.heap cli).sockfd s.clients <;> simp

theorem create_game_some (s : Server) (cli w : Nat)
    (h : create_game_scan s.heap (s.heap cli).sockfd s.clients = some w) :
    create_game s cli true =
      { s with
        games := store s.games s.ngames ⟨w, cli, 1, 0⟩
        ngames := s.ngames + 1
        heap := pair_clients s.heap w cli s.ngames
        out := s.out ++ [((pair_clients s.heap w cli s.ngames w).sockfd, start_message),
                         ((pair_clients s.heap w cli s.ngames cli).sockfd,
                           start_message)] } := by
  simp [create_game, h]

/-! ## The claims about the registry and the matchmaker -/

/-- C1 (amended): if the table holds an entry with `game_ready == 0` and a descriptor
different from that of `cli`, and the allocation of the game record succeeds, then
`create_game(cli)` creates exactly one game, at the next free address: the first such
entry of the table is its `player1` and gets `player_number` 1, `cli` is its `player2`
and gets `player_number` 2, `turn` is 1, `game_over` is 0, both records point to that
game and both have `game_ready == 1`, and every other game and client record is as
before.  If no such entry exists, or the allocation fails, `create_game(cli)` returns
the state unchanged: no record, no table entry and no game is touched. -/
theorem create_game_pairs (s : Server) (cli : Nat) :
    ((∃ p, some p ∈ s.clients ∧ (s.heap p).game_ready = 0 ∧
          (s.heap p).sockfd ≠ (s.heap cli).sockfd) →
      ∃ w before after,
        create_game_scan s.heap (s.heap cli).sockfd s.clients = some w ∧
        s.clients = before ++ some w :: after ∧
        (∀ p, some p ∈ before →
          ¬ ((s.heap p).game_ready = 0 ∧ (s.heap p).sockfd ≠ (s.heap cli).sockfd)) ∧
        (s.heap w).game_ready = 0 ∧ (s.heap w).sockfd ≠ (s.heap cli).sockfd ∧
        (create_game s cli true).ngames = s.ngames + 1 ∧
        (create_game s cli true).games s.ngames = ⟨w, cli, 1, 0⟩ ∧
        (∀ g, g ≠ s.ngames → (create_game s cli true).games g = s.games g) ∧
        (create_game s cli true).heap w = ⟨(s.heap w).sockfd, 1, 1, some s.ngames⟩ ∧
        (create_game s cli true).heap cli = ⟨(s.heap cli).sockfd, 1, 2, some s.ngames⟩ ∧
        (∀ p, p ≠ w → p ≠ cli → (create_game s cli true).heap p = s.heap p) ∧
        (create_game s cli true).clients = s.clients) ∧
    ((¬ ∃ p, some p ∈ s.clients ∧ (s.heap p).game_ready = 0 ∧
          (s.heap p).sockfd ≠ (s.heap cli).sockfd) →
      ∀ ok, create_game s cli ok = s) ∧
    create_game s cli false = s := by
  have hspec := create_game_scan_spec s.heap (s.heap cli).sockfd s.clients
  refine ⟨?_, ?_, create_game_fail s cli⟩
  · rintro ⟨p, hp, hr, hf⟩
    obtain ⟨w, hw⟩ := create_game_scan_some s.heap (s.heap cli).sockfd p s.clients hp
      ((is_waiting_iff _ _ _).2 ⟨hr, hf⟩)
    rw [hw] at hspec
    obtain ⟨before, after, h1, h2, h3⟩ := hspec
    have h2' := (is_waiting_iff _ _ _).1 h2
    have hne : w ≠ cli := by
      intro hc
      rw [hc] at h2'
      exact h2'.2 rfl
    refine ⟨w, before, after, hw, h1, ?_, h2'.1, h2'.2, ?_⟩
    · intro q hq hc
      have := h3 q hq
      rw [(is_waiting_iff _ _ _).2 hc] at this
      exact Bool.noConfusion this
    · rw [create_game_some s cli w hw]
      refine ⟨rfl, store_same _ _ _, fun g hg => store_other _ _ _ _ hg,
        pair_clients_waiting _ _ _ _ hne, pair_clients_cli _ _ _ _,
        fun q hq1 hq2 => pair_clients_other _ _ _ _ _ hq1 hq2, rfl⟩
  · intro hno ok
    apply create_game_none
    cases hs : create_game_scan s.heap (s.heap cli).sockfd s.clients with
    | none => rfl
    | some w =>
      rw [hs] at hspec
      obtain ⟨before, after, h1, h2, _⟩ := hspec
      exfalso
      apply hno
      have h2' := (is_waiting_iff _ _ _).1 h2
      exact ⟨w, by rw [h1]; simp, h2'.1, h2'.2⟩

/-- C1, instance: in the example state the client at address 1 is paired with the
waiting client at address 0, which becomes player 1. -/
theorem create_game_pairs_witness :
    (∃ w before after,
        create_game_scan two_waiting.heap (two_waiting.heap 1).sockfd two_waiting.clients
          = some w ∧
        two_waiting.clients = before ++ some w :: after ∧
        (∀ p, some p ∈ before →
          ¬ ((two_waiting.heap p).game_ready = 0 ∧
              (two_waiting.heap p).sockfd ≠ (two_waiting.heap 1).sockfd)) ∧
        (two_waiting.heap w).game_ready = 0 ∧
        (two_waiting.heap w).sockfd ≠ (two_waiting.heap 1).sockfd ∧
        (create_game two_waiting 1 true).ngames = two_waiting.ngames + 1 ∧
        (create_game two_waiting 1 true).games two_waiting.ngames = ⟨w, 1, 1, 0⟩ ∧
        (∀ g, g ≠ two_waiting.ngames →
          (create_game two_waiting 1 true).games g = two_waiting.games g) ∧
        (create_game two_waiting 1 true).heap w
          = ⟨(two_waiting.heap w).sockfd, 1, 1, some two_waiting.ngames⟩ ∧
        (create_game two_waiting 1 true).heap 1
          = ⟨(two_waiting.heap 1).sockfd, 1, 2, some two_waiting.ngames⟩ ∧
        (∀ p, p ≠ w → p ≠ 1 → (create_game two_waiting 1 true).heap p
          = two_waiting.heap p) ∧
        (create_game two_waiting 1 true).clients = two_waiting.clients) ∧
    (create_game two_waiting 1 true).games 0 = ⟨0, 1, 1, 0⟩ :=
  ⟨(create_game_pairs two_waiting 1).1 ⟨0, by decide, by decide, by decide⟩, by decide⟩

/-- C1 as stated fails when `malloc` returns `NULL`: the table of the example state
holds a waiting entry with another descriptor, yet `create_game` creates no game and
leaves both records unmatched. -/
theorem create_game_malloc_failure :
    some 0 ∈ two_waiting.clients ∧ (two_waiting.heap 0).game_ready = 0 ∧
    (two_waiting.heap 0).sockfd ≠ (two_waiting.heap 1).sockfd ∧
    (create_game two_waiting 1 false).ngames = two_waiting.ngames ∧
    ((create_game two_waiting 1 false).heap 1).game = none ∧
    ((create_game two_waiting 1 false).heap 1).game_ready = 0 ∧
    ((create_game two_waiting 1 false).heap 0).game = none := by
  decide

/-- C9 (amended): on every table in which at most one entry carries the descriptor,
`remove_client` applied twice yields the same state as applied once; and when no entry
carries the descriptor the state is left unchanged. -/
theorem remove_client_idempotent (s : Server) (sockfd : Int)
    (h : s.clients.countP (has_fd s.heap sockfd) ≤ 1) :
    remove_client (remove_client s sockfd) sockfd = remove_client s sockfd ∧
    (s.clients.countP (has_fd s.heap sockfd) = 0 → remove_client s sockfd = s) := by
  constructor
  · have hc := remove_client_loop_count s.heap sockfd s.clients
    have h0 : (remove_client_loop s.heap sockfd s.clients).countP (has_fd s.heap sockfd)
        = 0 := by omega
    simp only [remove_client]
    rw [remove_client_loop_absent s.heap sockfd _ h0]
  · intro h0
    simp only [remove_client]
    rw [remove_client_loop_absent s.heap sockfd _ h0]

/-- C9, instance: removing descriptor 4 from the example state once or twice. -/
theorem remove_client_idempotent_witness :
    two_waiting.clients.countP (has_fd two_waiting.heap 4) ≤ 1 ∧
    (remove_client (remove_client two_waiting 4) 4 = remove_client two_waiting 4 ∧
      (two_waiting.clients.countP (has_fd two_waiting.heap 4) = 0 →
        remove_client two_waiting 4 = two_waiting)) :=
  ⟨by decide, remove_client_idempotent two_waiting 4 (by decide)⟩

/-- C9 as stated fails on a table with two entries of the same descriptor: the first
call clears the first of them, the second call clears the other one. -/
theorem remove_client_twice_differs :
    same_fd.clients = some 2 :: some 1 :: List.replicate 98 none ∧
    (same_fd.heap 2).sockfd = 5 ∧ (same_fd.heap 1).sockfd = 5 ∧
    (remove_client same_fd 5).clients = none :: some 1 :: List.replicate 98 none ∧
    (remove_client (remove_client same_fd 5) 5).clients
      = none :: none :: List.replicate 98 none ∧
    (remove_client (remove_client same_fd 5) 5).clients
      ≠ (remove_client same_fd 5).clients := by
  decide

/-- C10 (amended): on every table with an empty slot, after `add_client(cl)` the client
is an entry of the table; and in every later state in which `cl` is still an entry with
`game_ready == 0`, the scan of `create_game` by a client with a different descriptor
finds a waiting peer, so that `create_game` creates a game when its allocation
succeeds. -/
theorem add_client_visible (s : Server) (cl : Nat) (h : none ∈ s.clients) :
    some cl ∈ (add_client s cl).clients ∧
    ∀ (t : Server) (cli : Nat), some cl ∈ t.clients → (t.heap cl).game_ready = 0 →
      (t.heap cli).sockfd ≠ (t.heap cl).sockfd →
      (∃ w, create_game_scan t.heap (t.heap cli).sockfd t.clients = some w ∧
        (t.heap w).game_ready = 0 ∧ (t.heap w).sockfd ≠ (t.heap cli).sockfd) ∧
      (create_game t cli true).ngames = t.ngames + 1 := by
  refine ⟨mem_add_client_loop cl s.clients h, ?_⟩
  intro t cli hmem hr hf
  obtain ⟨w, hw⟩ := create_game_scan_some t.heap (t.heap cli).sockfd cl t.clients hmem
    ((is_waiting_iff _ _ _).2 ⟨hr, fun hc => hf hc.symm⟩)
  have hspec := create_game_scan_spec t.heap (t.heap cli).sockfd t.clients
  rw [hw] at hspec
  obtain ⟨_, _, _, h2, _⟩ := hspec
  have h2' := (is_waiting_iff _ _ _).1 h2
  refine ⟨⟨w, hw, h2'.1, h2'.2⟩, ?_⟩
  rw [create_game_some t cli w hw]

/-- C10, instance: a third client added to the example state. -/
theorem add_client_visible_witness :
    none ∈ two_waiting.clients ∧
    (some 2 ∈ (add_client two_waiting 2).clients ∧
      ∀ (t : Server) (cli : Nat), some 2 ∈ t.clients → (t.heap 2).game_ready = 0 →
        (t.heap cli).sockfd ≠ (t.heap 2).sockfd →
        (∃ w, create_game_scan t.heap (t.heap cli).sockfd t.clients = some w ∧
          (t.heap w).game_ready = 0 ∧ (t.heap w).sockfd ≠ (t.heap cli).sockfd) ∧
        (create_game t cli true).ngames = t.ngames + 1) :=
  ⟨by decide, add_client_visible two_waiting 2 (by decide)⟩

set_option maxRecDepth 100000 in
/-- C10 as stated fails on a full table.  After 100 arrivals no slot is empty, and
`add_client` for the client at address 100 stores nothing.  When that client and then
the client at address 101 arrive through the accept loop, the first is no entry of the
table, and `create_game` for the second, whose descriptor differs, finds no waiting
peer although the first still has `game_ready == 0`: no game is created and both stay
without a session. -/
theorem add_client_full_table :
    none ∉ hundred_arrived.clients ∧
    (add_client hundred_arrived 100).clients = hundred_arrived.clients ∧
    some 100 ∉ (add_client hundred_arrived 100).clients ∧
    some 100 ∉ two_more_arrived.clients ∧
    (two_more_arrived.heap 100).sockfd = 104 ∧
    (two_more_arrived.heap 100).game_ready = 0 ∧
    (two_more_arrived.heap 101).sockfd = 105 ∧
    create_game_scan two_more_arrived.heap (two_more_arrived.heap 101).sockfd
      two_more_arrived.clients = none ∧
    (two_more_arrived.heap 101).game = none ∧
    two_more_arrived.ngames = hundred_arrived.ngames := by
  decide

/-! ## The invariant of the accept loop -/

theorem mem_remove_client_loop (heap : Nat → client_t) (fd : Int) (p : Nat) :
    ∀ t : List (Option Nat), some p ∈ remove_client_loop heap fd t → some p ∈ t := by
  intro t
  induction t with
  | nil => intro h; simp [remove_client_loop] at h
  | cons e rest ih =>
    intro h
    cases e with
    | none =>
      have h1 : some p ∈ remove_client_loop heap fd rest := by
        simpa [remove_client_loop] using h
      exact List.mem_cons_of_mem _ (ih h1)
    | some q =>
      by_cases hq : (heap q).sockfd = fd
      · have h1 : some p ∈ rest := by simpa [remove_client_loop, hq] using h
        exact List.mem_cons_of_mem _ h1
      · have h1 : p = q ∨ some p ∈ remove_client_loop heap fd rest := by
          simpa [remove_client_loop, hq] using h
        rcases h1 with h2 | h2
        · rw [h2]; exact List.mem_cons_self _ _
        · exact List.mem_cons_of_mem _ (ih h2)

theorem mem_add_client_loop_inv (cl p : Nat) :
    ∀ t : List (Option Nat), some p ∈ add_client_loop cl t → p = cl ∨ some p ∈ t := by
  intro t
  induction t with
  | nil => intro h; simp [add_client_loop] at h
  | cons e rest ih =>
    intro h
    cases e with
    | none =>
      have h1 : p = cl ∨ some p ∈ rest := by simpa [add_client_loop] using h
      rcases h1 with h2 | h2
      · exact Or.inl h2
      · exact Or.inr (List.mem_cons_of_mem _ h2)
    | some q =>
      have h1 : p = q ∨ some p ∈ add_client_loop cl rest := by
        simpa [add_client_loop] using h
      rcases h1 with h2 | h2
      · right; rw [h2]; exact List.mem_cons_self _ _
      · rcases ih h2 with h3 | h3
        · exact Or.inl h3
        · exact Or.inr (List.mem_cons_of_mem _ h3)

theorem alloc_record (h : Nat → client_t) (c : Nat) (fd : Int) (p : Nat) :
    set_game (set_game_ready (set_sockfd h c fd) c 0) c none p
      = if p = c then ⟨fd, 0, (h c).player_number, none⟩ else h p := by
  by_cases hp : p = c <;> simp [set_game, set_game_ready, set_sockfd, store, hp]

theorem Inv_init (h0 : Nat → client_t) (g0 : Nat → game_t) : Inv (init h0 g0) where
  table_lt := by
    intro p hp
    simp [init, empty_table, List.mem_replicate] at hp
  players_lt := by intro g hg; simp [init] at hg
  players_ne := by intro g hg; simp [init] at hg
  players_ready := by intro g p hg; simp [init] at hg
  one_game := by intro g g2 p hg; simp [init] at hg
  game_iff := by intro p hp; simp [init] at hp

theorem Inv_remove_client (s : Server) (fd : Int) (h : Inv s) :
    Inv (remove_client s fd) where
  table_lt := fun p hp => h.table_lt p (mem_remove_client_loop _ _ _ _ hp)
  players_lt := h.players_lt
  players_ne := h.players_ne
  players_ready := h.players_ready
  one_game := h.one_game
  game_iff := h.game_iff

theorem Inv_add_client (s : Server) (cl : Nat) (h : Inv s) (hcl : cl < s.nclients) :
    Inv (add_client s cl) where
  table_lt := by
    intro p hp
    rcases mem_add_client_loop_inv cl p s.clients hp with h1 | h1
    · rw [h1]; exact hcl
    · exact h.table_lt p h1
  players_lt := h.players_lt
  players_ne := h.players_ne
  players_ready := h.players_ready
  one_game := h.one_game
  game_iff := h.game_iff

theorem Inv_alloc (s : Server) (fd : Int) (h : Inv s) :
    Inv { s with
      heap := set_game (set_game_ready (set_sockfd s.heap s.nclients fd) s.nclients 0)
        s.nclients none
      nclients := s.nclients + 1 } where
  table_lt := fun p hp => Nat.lt_succ_of_lt (h.table_lt p hp)
  players_lt := fun g hg =>
    ⟨Nat.lt_succ_of_lt (h.players_lt g hg).1, Nat.lt_succ_of_lt (h.players_lt g hg).2⟩
  players_ne := h.players_ne
  players_ready := by
    intro g p hg hp
    have hlt : p < s.nclients := by
      rcases hp with h1 | h1
      · rw [← h1]; exact (h.players_lt g hg).1
      · rw [← h1]; exact (h.players_lt g hg).2
    show (set_game (set_game_ready (set_sockfd s.heap s.nclients fd) s.nclients 0)
        s.nclients none p).game_ready = 1
    rw [alloc_record, if_neg (Nat.ne_of_lt hlt)]
    exact h.players_ready g p hg hp
  one_game := h.one_game
  game_iff := by
    intro p hp
    show (set_game (set_game_ready (set_sockfd s.heap s.nclients fd) s.nclients 0)
        s.nclients none p).game = none ↔
      (set_game (set_game_ready (set_sockfd s.heap s.nclients fd) s.nclients 0)
        s.nclients none p).game_ready = 0
    rw [alloc_record]
    by_cases hc : p = s.nclients
    · simp [hc]
    · rw [if_neg hc]
      exact h.game_iff p (by
        have : p < s.nclients + 1 := hp
        omega)

theorem pair_clients_ready (h : Nat → client_t) (w cli g p : Nat)
    (hp : (h p).game_ready = 1) : (pair_clients h w cli g p).game_ready = 1 := by
  by_cases hc : p = cli
  · rw [hc, pair_clients_cli]
  · by_cases hw : p = w
    · rw [hw, pair_clients_waiting _ _ _ _ (fun e => hc (hw.trans e))]
    · rw [pair_clients_other _ _ _ _ _ hw hc]; exact hp

theorem Inv_create_game (s : Server) (cli : Nat) (ok : Bool) (h : Inv s)
    (hcli : cli < s.nclients) (hr : (s.heap cli).game_ready = 0) :
    Inv (create_game s cli ok) := by
  cases ok with
  | false => rw [create_game_fail]; exact h
  | true =>
    cases hs : create_game_scan s.heap (s.heap cli).sockfd s.clients with
    | none => rw [create_game_none s cli true hs]; exact h
    | some w =>
      have hspec := create_game_scan_spec s.heap (s.heap cli).sockfd s.clients
      rw [hs] at hspec
      obtain ⟨before, after, h1, h2, _⟩ := hspec
      have h2' := (is_waiting_iff _ _ _).1 h2
      have hne : w ≠ cli := by
        intro hc
        rw [hc] at h2'
        exact h2'.2 rfl
      have hwlt : w < s.nclients := h.table_lt w (by rw [h1]; simp)
      have old_player : ∀ g p, g < s.ngames → is_player s g p → p ≠ w ∧ p ≠ cli := by
        intro g p hg hp
        have h3 := h.players_ready g p hg hp
        constructor
        · intro hc; rw [hc, h2'.1] at h3; exact absurd h3 (by decide)
        · intro hc; rw [hc, hr] at h3; exact absurd h3 (by decide)
      rw [create_game_some s cli w hs]
      refine ⟨h.table_lt, ?_, ?_, ?_, ?_, ?_⟩
      · intro g hg
        show (store s.games s.ngames ⟨w, cli, 1, 0⟩ g).player1 < s.nclients ∧
          (store s.games s.ngames ⟨w, cli, 1, 0⟩ g).player2 < s.nclients
        by_cases hc : g = s.ngames
        · rw [hc, store_same]; exact ⟨hwlt, hcli⟩
        · rw [store_other _ _ _ _ hc]
          exact h.players_lt g (by
            have : g < s.ngames + 1 := hg
            omega)
      · intro g hg
        show (store s.games s.ngames ⟨w, cli, 1, 0⟩ g).player1 ≠
          (store s.games s.ngames ⟨w, cli, 1, 0⟩ g).player2
        by_cases hc : g = s.ngames
        · rw [hc, store_same]; exact hne
        · rw [store_other _ _ _ _ hc]
          exact h.players_ne g (by
            have : g < s.ngames + 1 := hg
            omega)
      · intro g p hg hp
        show (pair_clients s.heap w cli s.ngames p).game_ready = 1
        have hp' : (store s.games s.ngames ⟨w, cli, 1, 0⟩ g).player1 = p ∨
            (store s.games s.ngames ⟨w, cli, 1, 0⟩ g).player2 = p := hp
        by_cases hc : g = s.ngames
        · rw [hc, store_same] at hp'
          rcases hp' with h3 | h3
          · have h4 : w = p := h3
            rw [← h4, pair_clients_waiting _ _ _ _ hne]
          · have h4 : cli = p := h3
            rw [← h4, pair_clients_cli]
        · rw [store_other _ _ _ _ hc] at hp'
          have hg' : g < s.ngames := by
            have : g < s.ngames + 1 := hg
            omega
          exact pair_clients_ready _ _ _ _ _ (h.players_ready g p hg' hp')
      · intro g g2 p hg hg2 hp hp2
        have hp' : (store s.games s.ngames ⟨w, cli, 1, 0⟩ g).player1 = p ∨
            (store s.games s.ngames ⟨w, cli, 1, 0⟩ g).player2 = p := hp
        have hp2' : (store s.games s.ngames ⟨w, cli, 1, 0⟩ g2).player1 = p ∨
            (store s.games s.ngames ⟨w, cli, 1, 0⟩ g2).player2 = p := hp2
        have hg' : g < s.ngames + 1 := hg
        have hg2' : g2 < s.ngames + 1 := hg2
        have new_player : ∀ q, ((⟨w, cli, 1, 0⟩ : game_t).player1 = q ∨
            (⟨w, cli, 1, 0⟩ : game_t).player2 = q) → q = w ∨ q = cli := by
          intro q hq
          rcases hq with h3 | h3
          · exact Or.inl h3.symm
          · exact Or.inr h3.symm
        by_cases hc : g = s.ngames
        · by_cases hc2 : g2 = s.ngames
          · rw [hc, hc2]
          · exfalso
            rw [hc, store_same] at hp'
            rw [store_other _ _ _ _ hc2] at hp2'
            have h5 := old_player g2 p (by omega) hp2'
            rcases new_player p hp' with h6 | h6
            · exact h5.1 h6
            · exact h5.2 h6
        · by_cases hc2 : g2 = s.ngames
          · exfalso
            rw [hc2, store_same] at hp2'
            rw [store_other _ _ _ _ hc] at hp'
            have h5 := old_player g p (by omega) hp'
            rcases new_player p hp2' with h6 | h6
            · exact h5.1 h6
            · exact h5.2 h6
          · rw [store_other _ _ _ _ hc] at hp'
            rw [store_other _ _ _ _ hc2] at hp2'
            exact h.one_game g g2 p (by omega) (by omega) hp' hp2'
      · intro p hp
        show (pair_clients s.heap w cli s.ngames p).game = none ↔
          (pair_clients s.heap w cli s.ngames p).game_ready = 0
        by_cases hc : p = cli
        · rw [hc, pair_clients_cli]; simp
        · by_cases hw : p = w
          · rw [hw, pair_clients_waiting _ _ _ _ hne]; simp
          · rw [pair_clients_other _ _ _ _ _ hw hc]
            exact h.game_iff p hp

theorem Inv_main_loop (s : Server) (fd : Int) (cli_ok thread_ok game_ok : Bool)
    (h : Inv s) : Inv (main_loop s fd cli_ok thread_ok game_ok) := by
  unfold main_loop
  by_cases hfd : fd = -1
  · rw [if_pos hfd]; exact h
  · rw [if_neg hfd]
    cases cli_ok with
    | false => exact h
    | true =>
      have h1 := Inv_add_client _ s.nclients (Inv_alloc s fd h) (Nat.lt_succ_self _)
      cases thread_ok with
      | false => exact Inv_remove_client _ _ h1
      | true =>
        refine Inv_create_game _ s.nclients game_ok h1 (Nat.lt_succ_self _) ?_
        show (set_game (set_game_ready (set_sockfd s.heap s.nclients fd) s.nclients 0)
          s.nclients none s.nclients).game_ready = 0
        rw [alloc_record, if_pos rfl]

theorem Inv_step (s : Server) (e : Event) (h : Inv s) : Inv (step s e) := by
  cases e with
  | arrive fd a b c => exact Inv_main_loop s fd a b c h
  | depart fd => exact Inv_remove_client s fd h

theorem Inv_run (evs : List Event) : ∀ s : Server, Inv s → Inv (run s evs) := by
  induction evs with
  | nil => intro s h; exact h
  | cons e rest ih => intro s h; exact ih (step s e) (Inv_step s e h)

/-! ## The claims about reachable states -/

/-- C6: after every sequence of arrivals (one pass of the accept loop each, which runs
`add_client` and then `create_game`) and departures (`remove_client`), every game
created has `player1` different from `player2`, and every client is a player of at
most one game.  This holds for all descriptors, pairwise distinct ones in particular,
for every outcome of the allocations, and over any initial memory. -/
theorem no_double_pairing (h0 : Nat → client_t) (g0 : Nat → game_t) (evs : List Event) :
    (∀ g, g < (run (init h0 g0) evs).ngames →
      ((run (init h0 g0) evs).games g).player1
        ≠ ((run (init h0 g0) evs).games g).player2) ∧
    (∀ g g2 p, g < (run (init h0 g0) evs).ngames → g2 < (run (init h0 g0) evs).ngames →
      is_player (run (init h0 g0) evs) g p → is_player (run (init h0 g0) evs) g2 p →
      g = g2) :=
  ⟨(Inv_run evs _ (Inv_init h0 g0)).players_ne, (Inv_run evs _ (Inv_init h0 g0)).one_game⟩

/-- C6, instance: the example events create two games with four different players. -/
theorem no_double_pairing_witness :
    (run (init example_heap example_games) example_events).ngames = 2 ∧
    (run (init example_heap example_games) example_events).games 0 = ⟨0, 1, 1, 0⟩ ∧
    (run (init example_heap example_games) example_events).games 1 = ⟨2, 3, 1, 0⟩ ∧
    ((∀ g, g < (run (init example_heap example_games) example_events).ngames →
      ((run (init example_heap example_games) example_events).games g).player1
        ≠ ((run (init example_heap example_games) example_events).games g).player2) ∧
    (∀ g g2 p, g < (run (init example_heap example_games) example_events).ngames →
      g2 < (run (init example_heap example_games) example_events).ngames →
      is_player (run (init example_heap example_games) example_events) g p →
      is_player (run (init example_heap example_games) example_events) g2 p →
      g = g2)) :=
  ⟨by decide, by decide, by decide,
    no_double_pairing example_heap example_games example_events⟩

/-- C7 (amended): in every state reached through arrivals and departures, a
connection that is an entry of `clients[]` has no session (its `game` pointer is
unset) if and only if its `game_ready` is 0, which is what the scan of `create_game`
tests: the scan never returns a client that has a session.  `create_game` leaves the
table itself as it is, so after it pairs two clients both are entries of `clients[]`
as before. -/
theorem registry_session_invariant (h0 : Nat → client_t) (g0 : Nat → game_t)
    (evs : List Event) :
    (∀ p, some p ∈ (run (init h0 g0) evs).clients →
      (((run (init h0 g0) evs).heap p).game = none ↔
        ((run (init h0 g0) evs).heap p).game_ready = 0)) ∧
    (∀ fd w, create_game_scan (run (init h0 g0) evs).heap fd
        (run (init h0 g0) evs).clients = some w →
      ((run (init h0 g0) evs).heap w).game = none) ∧
    (∀ cli ok, (create_game (run (init h0 g0) evs) cli ok).clients
      = (run (init h0 g0) evs).clients) := by
  have hinv := Inv_run evs _ (Inv_init h0 g0)
  refine ⟨fun p hp => hinv.game_iff p (hinv.table_lt p hp), ?_, ?_⟩
  · intro fd w hw
    have hspec := create_game_scan_spec (run (init h0 g0) evs).heap fd
      (run (init h0 g0) evs).clients
    rw [hw] at hspec
    obtain ⟨before, after, h1, h2, _⟩ := hspec
    have hmem : some w ∈ (run (init h0 g0) evs).clients := by rw [h1]; simp
    exact (hinv.game_iff w (hinv.table_lt w hmem)).2 ((is_waiting_iff _ _ _).1 h2).1
  · intro cli ok
    cases ok with
    | false => rw [create_game_fail]
    | true =>
      cases hs : create_game_scan (run (init h0 g0) evs).heap
          ((run (init h0 g0) evs).heap cli).sockfd (run (init h0 g0) evs).clients with
      | none => rw [create_game_none _ cli true hs]
      | some w => rw [create_game_some _ cli w hs]

/-- C7, instance: after the example events the clients at addresses 2, 1 and 3 fill
the first three slots of the table, all of them with a session. -/
theorem registry_session_invariant_witness :
    (run (init example_heap example_games) example_events).clients
      = some 2 :: some 1 :: some 3 :: List.replicate 97 none ∧
    ((run (init example_heap example_games) example_events).heap 3).game = some 1 ∧
    ((∀ p, some p ∈ (run (init example_heap example_games) example_events).clients →
      (((run (init example_heap example_games) example_events).heap p).game = none ↔
        ((run (init example_heap example_games) example_events).heap p).game_ready = 0)) ∧
    (∀ fd w, create_game_scan (run (init example_heap example_games) example_events).heap
        fd (run (init example_heap example_games) example_events).clients = some w →
      ((run (init example_heap example_games) example_events).heap w).game = none) ∧
    (∀ cli ok, (create_game (run (init example_heap example_games) example_events) cli
        ok).clients = (run (init example_heap example_games) example_events).clients)) :=
  ⟨by decide, by decide,
    registry_session_invariant example_heap example_games example_events⟩

/-- C7 as stated fails: after two arrivals `create_game` has paired the clients at
addresses 0 and 1, both have a session, and both are still entries of `clients[]`. -/
theorem paired_clients_stay_registered :
    some 0 ∈ (run (init example_heap example_games)
      [Event.arrive 4 true true true, Event.arrive 5 true true true]).clients ∧
    some 1 ∈ (run (init example_heap example_games)
      [Event.arrive 4 true true true, Event.arrive 5 true true true]).clients ∧
    ((run (init example_heap example_games)
      [Event.arrive 4 true true true, Event.arrive 5 true true true]).heap 0).game
      = some 0 ∧
    ((run (init example_heap example_games)
      [Event.arrive 4 true true true, Event.arrive 5 true true true]).heap 1).game
      = some 0 := by
  decide

/-! ## Arrivals in sequence -/

theorem run_append (s : Server) (evs evs2 : List Event) :
    run s (evs ++ evs2) = run (run s evs) evs2 := by
  simp [run, List.foldl_append]

theorem add_client_loop_fill (cl : Nat) (rest : List (Option Nat)) :
    ∀ l : List Nat, add_client_loop cl (l.map some ++ none :: rest)
      = (l ++ [cl]).map some ++ rest := by
  intro l
  induction l with
  | nil => simp [add_client_loop]
  | cons a l ih => simp [add_client_loop, ih]

theorem Arrived_init (h0 : Nat → client_t) (g0 : Nat → game_t) :
    Arrived [] (init h0 g0) where
  nclients := rfl
  ngames := rfl
  table := by simp [init, empty_table]
  fd := by intro p hp; simp at hp
  paired := by intro p hp; simp at hp
  alone := by intro p _ hp; simp at hp
  games := by intro g hg; simp at hg

theorem pair_clients_sockfd (h : Nat → client_t) (w cli g p : Nat) :
    (pair_clients h w cli g p).sockfd = (h p).sockfd := by
  by_cases hc : p = cli
  · rw [hc, pair_clients_cli]
  · by_cases hw : p = w
    · rw [hw, pair_clients_waiting _ _ _ _ (fun e => hc (hw.trans e))]
    · rw [pair_clients_other _ _ _ _ _ hw hc]

theorem Arrived_step (fds : List Int) (fd : Int) (s : Server) (h : Arrived fds s)
    (hd : (fds ++ [fd]).Nodup) (hfd : fd ≠ -1) (hn : fds.length < MAX_CLIENTS) :
    Arrived (fds ++ [fd]) (main_loop s fd true true true) := by
  have hlen : (fds ++ [fd]).length = fds.length + 1 := by simp
  -- the state after the record is allocated and registered
  have hs1 : main_loop s fd true true true
      = create_game (add_client { s with
          heap := set_game (set_game_ready (set_sockfd s.heap s.nclients fd)
            s.nclients 0) s.nclients none
          nclients := s.nclients + 1 } s.nclients) s.nclients true := by
    simp [main_loop, hfd]
  rw [hs1]
  generalize hs1def : add_client { s with
          heap := set_game (set_game_ready (set_sockfd s.heap s.nclients fd)
            s.nclients 0) s.nclients none
          nclients := s.nclients + 1 } s.nclients = s1
  have hheap : ∀ p, s1.heap p
      = if p = fds.length then ⟨fd, 0, (s.heap fds.length).player_number, none⟩
        else s.heap p := by
    intro p
    rw [← hs1def, ← h.nclients]
    exact alloc_record s.heap s.nclients fd p
  have hnc : s1.nclients = fds.length + 1 := by rw [← hs1def, ← h.nclients]; rfl
  have hng : s1.ngames = fds.length / 2 := by rw [← hs1def, ← h.ngames]; rfl
  have hgames : s1.games = s.games := by rw [← hs1def]; rfl
  have htab : s1.clients = (List.range (fds.length + 1)).map some
      ++ List.replicate (MAX_CLIENTS - (fds.length + 1)) none := by
    rw [← hs1def]
    show add_client_loop s.nclients s.clients = _
    have hrep : List.replicate (MAX_CLIENTS - fds.length) (none : Option Nat)
        = none :: List.replicate (MAX_CLIENTS - (fds.length + 1)) none := by
      have : MAX_CLIENTS - fds.length = (MAX_CLIENTS - (fds.length + 1)) + 1 := by omega
      rw [this, List.replicate_succ]
    rw [h.table, hrep, add_client_loop_fill, h.nclients, List.range_succ]
  have hmem : ∀ p, some p ∈ s1.clients ↔ p < fds.length + 1 := by
    intro p
    rw [htab]
    simp [List.mem_replicate]
  have hfds : ∀ p, p < fds.length + 1 → some (s1.heap p).sockfd = (fds ++ [fd])[p]? := by
    intro p hp
    rw [hheap]
    by_cases hc : p = fds.length
    · rw [if_pos hc, hc]; simp
    · rw [if_neg hc, h.fd p (by omega), List.getElem?_append_left (by omega)]
  have hold : ∀ p, p < fds.length → s1.heap p = s.heap p := by
    intro p hp
    rw [hheap, if_neg (by omega)]
  have hnew : s1.heap fds.length = ⟨fd, 0, (s.heap fds.length).player_number, none⟩ := by
    rw [hheap, if_pos rfl]
  have hself : (s1.heap s.nclients).sockfd = fd := by rw [h.nclients, hnew]
  have hspec := create_game_scan_spec s1.heap fd s1.clients
  rcases Nat.even_or_odd' fds.length with ⟨m, hm | hm⟩
  · -- an even number of clients is there: nobody waits
    have hnone : create_game_scan s1.heap (s1.heap s.nclients).sockfd s1.clients
        = none := by
      rw [hself]
      cases hsc : create_game_scan s1.heap fd s1.clients with
      | none => rfl
      | some w =>
        exfalso
        rw [hsc] at hspec
        obtain ⟨before, after, h1, h2, _⟩ := hspec
        have h2' := (is_waiting_iff _ _ _).1 h2
        have hw : w < fds.length + 1 := (hmem w).1 (by rw [h1]; simp)
        by_cases hc : w = fds.length
        · rw [hc, hnew] at h2'; exact h2'.2 rfl
        · have h3 := (h.paired w (by omega)).1
          rw [hold w (by omega), h3] at h2'
          exact absurd h2'.1 (by decide)
    rw [create_game_none _ _ true hnone]
    refine ⟨by rw [hnc, hlen], by rw [hng, hlen]; omega, by rw [htab, hlen], ?_, ?_, ?_, ?_⟩
    · intro p hp; exact hfds p (by omega)
    · intro p hp
      rw [hlen] at hp
      rw [hold p (by omega)]
      exact h.paired p (by omega)
    · intro p hp1 hp2
      rw [hlen] at hp1 hp2
      have hp : p = fds.length := by omega
      rw [hp, hnew]; simp
    · intro g hg
      rw [hlen] at hg
      rw [hgames]
      exact h.games g (by omega)
  · -- an odd number of clients is there: the last one waits and is found
    have hlast : is_waiting s1.heap fd (2 * m) = true := by
      rw [is_waiting_iff, hold (2 * m) (by omega)]
      refine ⟨(h.alone (2 * m) (by omega) (by omega)).1, ?_⟩
      intro hc
      have h4 := h.fd (2 * m) (by omega)
      rw [hc] at h4
      have h5 : fd ∈ fds := List.getElem?_mem h4.symm
      have h6 := List.nodup_append.1 hd
      exact h6.2.2 h5 (List.mem_singleton_self fd)
    obtain ⟨w, hw⟩ := create_game_scan_some s1.heap fd (2 * m) s1.clients
      ((hmem _).2 (by omega)) hlast
    rw [hw] at hspec
    obtain ⟨before, after, h1, h2, _⟩ := hspec
    have h2' := (is_waiting_iff _ _ _).1 h2
    have hwlt : w < fds.length + 1 := (hmem w).1 (by rw [h1]; simp)
    have hweq : w = 2 * m := by
      by_cases hc : w = fds.length
      · rw [hc, hnew] at h2'; exact absurd rfl h2'.2
      · by_cases hc2 : w < 2 * m
        · have h3 := (h.paired w (by omega)).1
          rw [hold w (by omega), h3] at h2'
          exact absurd h2'.1 (by decide)
        · omega
    have hsome : create_game_scan s1.heap (s1.heap s.nclients).sockfd s1.clients
        = some (2 * m) := by rw [hself, hw, hweq]
    rw [create_game_some _ _ _ hsome]
    have hne : 2 * m ≠ s.nclients := by rw [h.nclients]; omega
    refine ⟨by rw [hlen]; exact hnc, ?_, by rw [hlen]; exact htab, ?_, ?_, ?_, ?_⟩
    · show s1.ngames + 1 = (fds ++ [fd]).length / 2
      rw [hng, hlen]; omega
    · intro p hp
      show some (pair_clients s1.heap (2 * m) s.nclients s1.ngames p).sockfd = _
      rw [pair_clients_sockfd]
      exact hfds p (by omega)
    · intro p hp
      rw [hlen] at hp
      show (pair_clients s1.heap (2 * m) s.nclients s1.ngames p).game_ready = 1 ∧
        (pair_clients s1.heap (2 * m) s.nclients s1.ngames p).player_number
          = ((p % 2 : Nat) : Int) + 1 ∧
        (pair_clients s1.heap (2 * m) s.nclients s1.ngames p).game = some (p / 2)
      by_cases hc : p = s.nclients
      · rw [hc, pair_clients_cli, h.nclients, hng]
        refine ⟨rfl, ?_, ?_⟩
        · have : fds.length % 2 = 1 := by omega
          rw [this]; rfl
        · rfl
      · by_cases hc2 : p = 2 * m
        · rw [hc2, pair_clients_waiting _ _ _ _ hne, hng]
          refine ⟨rfl, ?_, ?_⟩
          · have : 2 * m % 2 = 0 := by omega
            rw [this]; rfl
          · have : fds.length / 2 = 2 * m / 2 := by omega
            rw [this]
        · rw [pair_clients_other _ _ _ _ _ hc2 hc, hold p (by rw [h.nclients] at hc; omega)]
          exact h.paired p (by rw [h.nclients] at hc; omega)
    · intro p hp1 hp2
      rw [hlen] at hp1 hp2
      omega
    · intro g hg
      rw [hlen] at hg
      show store s1.games s1.ngames ⟨2 * m, s.nclients, 1, 0⟩ g = _
      by_cases hc : g = s1.ngames
      · rw [hc, store_same, hng, h.nclients]
        have h7 : 2 * (fds.length / 2) = 2 * m := by omega
        rw [h7, hm]
      · rw [store_other _ _ _ _ hc, hgames]
        exact h.games g (by rw [hng] at hc; omega)

theorem Arrived_run (h0 : Nat → client_t) (g0 : Nat → game_t) :
    ∀ fds : List Int, fds.Nodup → (∀ fd ∈ fds, fd ≠ -1) → fds.length ≤ MAX_CLIENTS →
      Arrived fds (run (init h0 g0) (arrivals fds)) := by
  intro fds
  induction fds using List.reverseRecOn with
  | nil => intro _ _ _; exact Arrived_init h0 g0
  | append_singleton fds fd ih =>
    intro hd hfd hn
    have hlen : (fds ++ [fd]).length = fds.length + 1 := by simp
    have hd' : fds.Nodup := (List.nodup_append.1 hd).1
    have ih' := ih hd' (fun x hx => hfd x (List.mem_append_left _ hx)) (by omega)
    have := Arrived_step fds fd _ ih' hd (hfd fd (by simp)) (by omega)
    simpa [arrivals, run_append, run, step] using this

/-- C8 (amended): let clients with pairwise distinct descriptors `fds`, at most
`MAX_CLIENTS` of them, arrive one after another into the empty registry, with no
departure and every allocation and thread creation succeeding.  The arrival number
`i + 1` is the record at address `i`.  When `i + 1` is even it is paired at its arrival:
a game is created whose `player1` is the arrival before it, unmatched until then, with
`player_number` 1, and whose `player2` is the new arrival with `player_number` 2.  When
`i + 1` is odd no game is created at its arrival and it stays without a session. -/
theorem arrivals_pair_in_order (h0 : Nat → client_t) (g0 : Nat → game_t)
    (fds : List Int) (hd : fds.Nodup) (hfd : ∀ fd ∈ fds, fd ≠ -1)
    (hn : fds.length ≤ MAX_CLIENTS) (i : Nat) (hi : i < fds.length) :
    some ((after_arrivals h0 g0 fds (i + 1)).heap i).sockfd = fds[i]? ∧
    (i % 2 = 1 →
      ((after_arrivals h0 g0 fds i).heap (i - 1)).game = none ∧
      (after_arrivals h0 g0 fds (i + 1)).ngames
        = (after_arrivals h0 g0 fds i).ngames + 1 ∧
      (after_arrivals h0 g0 fds i).ngames = i / 2 ∧
      (after_arrivals h0 g0 fds (i + 1)).games (i / 2) = ⟨i - 1, i, 1, 0⟩ ∧
      ((after_arrivals h0 g0 fds (i + 1)).heap (i - 1)).game = some (i / 2) ∧
      ((after_arrivals h0 g0 fds (i + 1)).heap i).game = some (i / 2) ∧
      ((after_arrivals h0 g0 fds (i + 1)).heap (i - 1)).player_number = 1 ∧
      ((after_arrivals h0 g0 fds (i + 1)).heap i).player_number = 2) ∧
    (i % 2 = 0 →
      ((after_arrivals h0 g0 fds (i + 1)).heap i).game = none ∧
      ((after_arrivals h0 g0 fds (i + 1)).heap i).game_ready = 0 ∧
      (after_arrivals h0 g0 fds (i + 1)).ngames
        = (after_arrivals h0 g0 fds i).ngames) := by
  have hsub : ∀ k, List.Sublist (fds.take k) fds := fun k => List.take_sublist k fds
  have hA : ∀ k, k ≤ fds.length → Arrived (fds.take k) (after_arrivals h0 g0 fds k) := by
    intro k hk
    refine Arrived_run h0 g0 (fds.take k) (hd.sublist (hsub k))
      (fun x hx => hfd x ((hsub k).subset hx)) ?_
    rw [List.length_take]
    omega
  have hb := hA i (by omega)
  have ha := hA (i + 1) (by omega)
  have hlb : (fds.take i).length = i := by rw [List.length_take]; omega
  have hla : (fds.take (i + 1)).length = i + 1 := by rw [List.length_take]; omega
  refine ⟨?_, ?_, ?_⟩
  · have h1 := ha.fd i (by omega)
    rw [h1, List.getElem?_take_of_lt (Nat.lt_succ_self i)]
  · intro hodd
    have hp1 := ha.paired (i - 1) (by rw [hla]; omega)
    have hp2 := ha.paired i (by rw [hla]; omega)
    have hgm := ha.games (i / 2) (by rw [hla]; omega)
    have e1 : 2 * (i / 2) = i - 1 := by omega
    have e2 : (i - 1) / 2 = i / 2 := by omega
    have e3 : (i - 1) % 2 = 0 := by omega
    refine ⟨(hb.alone (i - 1) (by rw [hlb]; omega) (by rw [hlb]; omega)).2, ?_, ?_, ?_,
      ?_, hp2.2.2, ?_, ?_⟩
    · rw [ha.ngames, hb.ngames, hla, hlb]; omega
    · rw [hb.ngames, hlb]
    · rw [hgm, e1]
      have : i - 1 + 1 = i := by omega
      rw [this]
    · rw [hp1.2.2, e2]
    · rw [hp1.2.1, e3]; rfl
    · rw [hp2.2.1, hodd]; rfl
  · intro heven
    have hal := ha.alone i (by rw [hla]; omega) (by rw [hla]; omega)
    refine ⟨hal.2, hal.1, ?_⟩
    rw [ha.ngames, hb.ngames, hla, hlb]; omega

/-- C8, scenario with four clients A, B, C, D (descriptors 4, 5, 6, 7; addresses 0, 1,
2, 3): C is alone and unpaired after its arrival, and D is paired with C at its
arrival; the games are (A, B) and (C, D). -/
theorem arrivals_pair_in_order_witness :
    ([4, 5, 6, 7] : List Int).Nodup ∧ (∀ fd ∈ ([4, 5, 6, 7] : List Int), fd ≠ -1) ∧
    ([4, 5, 6, 7] : List Int).length ≤ MAX_CLIENTS ∧
    ((after_arrivals example_heap example_games [4, 5, 6, 7] 3).heap 2).game = none ∧
    (after_arrivals example_heap example_games [4, 5, 6, 7] 4).games 0 = ⟨0, 1, 1, 0⟩ ∧
    (after_arrivals example_heap example_games [4, 5, 6, 7] 4).games 1 = ⟨2, 3, 1, 0⟩ ∧
    ((after_arrivals example_heap example_games [4, 5, 6, 7] 3).heap (3 - 1)).game = none ∧
    (after_arrivals example_heap example_games [4, 5, 6, 7] (3 + 1)).ngames
      = (after_arrivals example_heap example_games [4, 5, 6, 7] 3).ngames + 1 ∧
    (after_arrivals example_heap example_games [4, 5, 6, 7] 3).ngames = 3 / 2 ∧
    (after_arrivals example_heap example_games [4, 5, 6, 7] (3 + 1)).games (3 / 2)
      = ⟨3 - 1, 3, 1, 0⟩ ∧
    ((after_arrivals example_heap example_games [4, 5, 6, 7] (3 + 1)).heap (3 - 1)).game
      = some (3 / 2) ∧
    ((after_arrivals example_heap example_games [4, 5, 6, 7] (3 + 1)).heap 3).game
      = some (3 / 2) ∧
    ((after_arrivals example_heap example_games [4, 5, 6, 7] (3 + 1)).heap
      (3 - 1)).player_number = 1 ∧
    ((after_arrivals example_heap example_games [4, 5, 6, 7] (3 + 1)).heap
      3).player_number = 2 :=
  ⟨by decide, by decide, by decide, by decide, by decide, by decide,
    ((arrivals_pair_in_order example_heap example_games [4, 5, 6, 7] (by decide)
      (by decide) (by decide) 3 (by decide)).2.1 (by decide))⟩

/-- C8 as stated fails when the allocation inside `create_game` fails: the second
arrival, an even one, is processed by `add_client` and `create_game` and is not paired;
no game exists and both clients are without a session. -/
theorem second_arrival_unpaired :
    (run (init example_heap example_games)
      [Event.arrive 4 true true true, Event.arrive 5 true true false]).ngames = 0 ∧
    ((run (init example_heap example_games)
      [Event.arrive 4 true true true, Event.arrive 5 true true false]).heap 1).game
      = none ∧
    ((run (init example_heap example_games)
      [Event.arrive 4 true true true, Event.arrive 5 true true false]).heap 0).game
      = none ∧
    some 1 ∈ (run (init example_heap example_games)
      [Event.arrive 4 true true true, Event.arrive 5 true true false]).clients := by
  decide

/-! ## C strings and the relay buffer -/

theorem takeWhile_append_stop {α : Type} (p : α → Bool) (x : α) (r : List α)
    (hx : p x = false) : ∀ l : List α, (l ++ x :: r).takeWhile p = l.takeWhile p := by
  intro l
  induction l with
  | nil => simp [List.takeWhile, hx]
  | cons a l ih =>
    by_cases ha : p a = true
    · simp [List.takeWhile_cons, ha, ih]
    · simp [List.takeWhile_cons, ha]

theorem take_length_takeWhile {α : Type} (p : α → Bool) :
    ∀ l : List α, l.take (l.takeWhile p).length = l.takeWhile p := by
  intro l
  induction l with
  | nil => rfl
  | cons a l ih =>
    by_cases ha : p a = true
    · simp [List.takeWhile_cons, ha, ih]
    · simp [List.takeWhile_cons, ha]

theorem c_str_append_zero (data rest : List Nat) :
    c_str (data ++ 0 :: rest) = c_str data :=
  takeWhile_append_stop _ 0 rest (by simp) data

theorem c_str_of_no_zero (data : List Nat) (h : ∀ b ∈ data, b ≠ 0) : c_str data = data := by
  unfold c_str
  rw [List.takeWhile_eq_self_iff]
  intro b hb
  simpa using h b hb

theorem take_strlen (buf : List Nat) : buf.take (strlen buf) = c_str buf :=
  take_length_takeWhile _ buf

theorem strstr_at_iff (needle : List Nat) :
    ∀ text : List Nat, strstr_at needle text ≠ none ↔ needle <:+: text := by
  intro text
  induction text with
  | nil =>
    by_cases hn : needle = []
    · simp [strstr_at, hn]
    · simp [strstr_at, hn]
  | cons c t ih =>
    rw [List.infix_cons_iff]
    by_cases hp : needle.isPrefixOf (c :: t) = true
    · have hp' : needle <+: c :: t := List.isPrefixOf_iff_prefix.1 hp
      simp [strstr_at, hp, hp']
    · have hp' : ¬ needle <+: c :: t := fun hc => hp (List.isPrefixOf_iff_prefix.2 hc)
      have h1 : strstr_at needle (c :: t) = (strstr_at needle t).map (fun i => i + 1) := by
        simp [strstr_at, hp]
      rw [h1]
      constructor
      · intro h
        right
        apply ih.1
        intro hc
        rw [hc] at h
        exact h rfl
      · intro h
        rcases h with h | h
        · exact absurd h hp'
        · have h2 := ih.2 h
          intro hc
          cases hs : strstr_at needle t with
          | none => exact h2 hs
          | some i => rw [hs] at hc; simp at hc

/-- The buffer after `read` stored `data` and `buffer[rcount] = 0` was executed. -/
theorem read_then_terminate (buffer bytes : List Nat) (hb : buffer.length = BUF_SIZE) :
    (read (some bytes) buffer (BUF_SIZE - 1)).1 = ((bytes.take (BUF_SIZE - 1)).length : Int) ∧
    (read (some bytes) buffer (BUF_SIZE - 1)).2.set
        (read (some bytes) buffer (BUF_SIZE - 1)).1.toNat 0
      = bytes.take (BUF_SIZE - 1) ++ 0 :: buffer.drop ((bytes.take (BUF_SIZE - 1)).length + 1) := by
  refine ⟨rfl, ?_⟩
  show (bytes.take (BUF_SIZE - 1)
      ++ buffer.drop (bytes.take (BUF_SIZE - 1)).length).set
        (((bytes.take (BUF_SIZE - 1)).length : Int)).toNat 0 = _
  generalize hdata : bytes.take (BUF_SIZE - 1) = data
  have hlen : data.length ≤ BUF_SIZE - 1 := by
    rw [← hdata, List.length_take]
    exact Nat.min_le_left _ _
  have hlt : data.length < buffer.length := by
    rw [hb]
    have : BUF_SIZE = 1024 := rfl
    omega
  rw [Int.toNat_ofNat, List.set_append_right _ _ (Nat.le_refl _), Nat.sub_self,
    List.drop_eq_getElem_cons hlt]
  rfl

/-! ## One pass through the relay loop -/

theorem c_str_You_lose : c_str You_lose = You_lose := by decide

theorem c_str_You_win : c_str You_win = You_win := by decide

/-- A pass in which it is the client's turn and the read delivers at least one byte. -/
theorem handle_read_loop_relay (s : Server) (cli game : Nat) (buffer bytes : List Nat)
    (hb : buffer.length = BUF_SIZE)
    (hturn : (s.games game).turn = (s.heap cli).player_number)
    (hover : (s.games game).game_over = 0) (hne : bytes ≠ []) :
    handle_read_loop s cli game buffer (some bytes) =
      ({ s with
          games := store s.games game
            { player1 := (s.games game).player1
              player2 := (s.games game).player2
              turn := if (s.heap cli).player_number = 1 then 2 else 1
              game_over :=
                if You_lose <:+: c_str (bytes.take (BUF_SIZE - 1)) ∨
                    You_win <:+: c_str (bytes.take (BUF_SIZE - 1)) then 1 else 0 }
          out := s.out ++
            [((s.heap (if (s.heap cli).player_number = 1 then (s.games game).player2
                else (s.games game).player1)).sockfd,
              c_str (bytes.take (BUF_SIZE - 1)))] },
        bytes.take (BUF_SIZE - 1)
          ++ 0 :: buffer.drop ((bytes.take (BUF_SIZE - 1)).length + 1),
        Outcome.relayed) := by
  obtain ⟨h1, h2⟩ := read_then_terminate buffer bytes hb
  have hpos : ¬ (read (some bytes) buffer (BUF_SIZE - 1)).1 ≤ 0 := by
    rw [h1]
    have : (bytes.take (BUF_SIZE - 1)).length ≠ 0 := by
      cases bytes with
      | nil => exact absurd rfl hne
      | cons a t => simp [BUF_SIZE]
    omega
  unfold handle_read_loop
  simp only [hturn, hover, and_self, if_true, if_neg hpos, h2, take_strlen,
    c_str_append_zero, strstr, c_str_You_lose, c_str_You_win, strstr_at_iff, ne_eq,
    not_true_eq_false, if_false]
  by_cases hm : You_lose <:+: c_str (bytes.take (BUF_SIZE - 1)) ∨
      You_win <:+: c_str (bytes.take (BUF_SIZE - 1))
  · simp only [if_pos hm]
  · simp only [if_neg hm, hover]

/-- A pass in which it is the client's turn and the read fails or delivers nothing. -/
theorem handle_read_loop_disconnect (s : Server) (cli game : Nat) (buffer : List Nat)
    (pending : Option (List Nat))
    (hturn : (s.games game).turn = (s.heap cli).player_number)
    (hover : (s.games game).game_over = 0)
    (hrd : (read pending buffer (BUF_SIZE - 1)).1 ≤ 0) :
    handle_read_loop s cli game buffer pending =
      ({ s with games := store s.games game { s.games game with game_over := 1 } },
        (read pending buffer (BUF_SIZE - 1)).2, Outcome.disconnected) := by
  unfold handle_read_loop
  simp only [hturn, hover, and_self, if_true, if_pos hrd, ne_eq, not_true_eq_false,
    if_false]

/-- A pass in which it is not the client's turn, or the game is over: nothing is read
and nothing changes. -/
theorem handle_read_loop_idle (s : Server) (cli game : Nat) (buffer : List Nat)
    (pending : Option (List Nat))
    (h : ¬ ((s.games game).turn = (s.heap cli).player_number ∧
      (s.games game).game_over = 0)) :
    (handle_read_loop s cli game buffer pending).1 = s ∧
    (handle_read_loop s cli game buffer pending).2.1 = buffer ∧
    ((handle_read_loop s cli game buffer pending).2.2 = Outcome.exited ∨
      (handle_read_loop s cli game buffer pending).2.2 = Outcome.waited) := by
  unfold handle_read_loop
  by_cases hover : (s.games game).game_over ≠ 0
  · simp only [if_pos hover, true_or, and_self]
  · simp only [if_neg hover, if_neg h, or_true, and_self]

theorem read_nonpos_iff (pending : Option (List Nat)) (buffer : List Nat) :
    (read pending buffer (BUF_SIZE - 1)).1 ≤ 0 ↔ pending = none ∨ pending = some [] := by
  cases pending with
  | none => simp [read]
  | some bytes =>
    cases bytes with
    | nil => simp [read]
    | cons a t =>
      simp only [read, BUF_SIZE]
      simp
      omega

/-! ## The claims about the relay loop -/

/-- C3 (amended): in a pass of the relay loop in which it is the client's turn and one
`read` call returns a payload of 1 to `BUF_SIZE - 1` bytes, exactly one write is made,
to the opponent's socket, and it carries the bytes of the payload before its first
zero byte; for every payload without a zero byte the byte sequence written is equal to
the byte sequence that was read. -/
theorem relay_forwards_text (s : Server) (cli game : Nat) (buffer payload : List Nat)
    (hb : buffer.length = BUF_SIZE)
    (hturn : (s.games game).turn = (s.heap cli).player_number)
    (hover : (s.games game).game_over = 0)
    (h1 : 1 ≤ payload.length) (h2 : payload.length ≤ BUF_SIZE - 1) :
    (handle_read_loop s cli game buffer (some payload)).2.2 = Outcome.relayed ∧
    (handle_read_loop s cli game buffer (some payload)).1.out
      = s.out ++ [((s.heap (if (s.heap cli).player_number = 1 then (s.games game).player2
            else (s.games game).player1)).sockfd,
          payload.takeWhile (fun b => decide (b ≠ 0)))] ∧
    ((∀ b ∈ payload, b ≠ 0) →
      (handle_read_loop s cli game buffer (some payload)).1.out
        = s.out ++ [((s.heap (if (s.heap cli).player_number = 1 then
            (s.games game).player2 else (s.games game).player1)).sockfd, payload)]) := by
  have hne : payload ≠ [] := by
    intro hc
    rw [hc] at h1
    simp at h1
  have htake : payload.take (BUF_SIZE - 1) = payload := List.take_of_length_le h2
  rw [handle_read_loop_relay s cli game buffer payload hb hturn hover hne, htake]
  refine ⟨rfl, rfl, ?_⟩
  intro hz
  show s.out ++ [(_, c_str payload)] = _
  rw [c_str_of_no_zero payload hz]

/-- C3, instance: player 1 of the example session sends `"B3"`, and `"B3"` is written
to the socket of player 2. -/
theorem relay_forwards_text_witness :
    (example_buffer.length = BUF_SIZE ∧
      (playing.games 0).turn = (playing.heap 0).player_number ∧
      (playing.games 0).game_over = 0 ∧ 1 ≤ [66, 51].length ∧
      [66, 51].length ≤ BUF_SIZE - 1 ∧ ∀ b ∈ [66, 51], b ≠ 0) ∧
    (handle_read_loop playing 0 0 example_buffer (some [66, 51])).1.out
      = playing.out ++ [((playing.heap (if (playing.heap 0).player_number = 1 then
          (playing.games 0).player2 else (playing.games 0).player1)).sockfd, [66, 51])] :=
  ⟨⟨List.length_replicate _ _, by decide, by decide, by decide, by decide, by decide⟩,
    (relay_forwards_text playing 0 0 example_buffer [66, 51] (List.length_replicate _ _)
      (by decide) (by decide) (by decide) (by decide)).2.2 (by decide)⟩

/-- C3 as stated fails for a payload with a zero byte: of the three bytes `65 0 66`
read from player 1 only the byte `65` is written to player 2 (descriptor 5). -/
theorem relay_truncates_at_zero :
    (handle_read_loop playing 0 0 example_buffer (some [65, 0, 66])).2.2
      = Outcome.relayed ∧
    (handle_read_loop playing 0 0 example_buffer (some [65, 0, 66])).1.out
      = playing.out ++ [(5, [65])] ∧
    ([65] : List Nat) ≠ [65, 0, 66] := by
  decide

/-- C4: in a pass of the relay loop in which it is the client's turn and the read
returns a text payload (1 to 1023 bytes, no zero byte), the payload is written to the
peer, and `game_over` is 1 afterwards if and only if the payload contains `"You lose"`
or `"You win"` as a substring, byte for byte; otherwise it is still 0.  With the marker
the session has ended: every later pass of either reader leaves its loop. -/
theorem relay_ends_on_marker (s : Server) (cli game : Nat) (buffer payload : List Nat)
    (hb : buffer.length = BUF_SIZE)
    (hturn : (s.games game).turn = (s.heap cli).player_number)
    (hover : (s.games game).game_over = 0)
    (h1 : 1 ≤ payload.length) (h2 : payload.length ≤ BUF_SIZE - 1)
    (hz : ∀ b ∈ payload, b ≠ 0) :
    (handle_read_loop s cli game buffer (some payload)).1.out
      = s.out ++ [((s.heap (if (s.heap cli).player_number = 1 then (s.games game).player2
            else (s.games game).player1)).sockfd, payload)] ∧
    (((handle_read_loop s cli game buffer (some payload)).1.games game).game_over = 1 ↔
      (You_lose <:+: payload ∨ You_win <:+: payload)) ∧
    (¬ (You_lose <:+: payload ∨ You_win <:+: payload) →
      ((handle_read_loop s cli game buffer (some payload)).1.games game).game_over = 0) ∧
    ((You_lose <:+: payload ∨ You_win <:+: payload) →
      ∀ (c : Nat) (buf : List Nat) (pending : Option (List Nat)),
        (handle_read_loop (handle_read_loop s cli game buffer (some payload)).1 c game buf
          pending).2.2 = Outcome.exited) := by
  have hne : payload ≠ [] := by
    intro hc
    rw [hc] at h1
    simp at h1
  have htake : payload.take (BUF_SIZE - 1) = payload := List.take_of_length_le h2
  rw [handle_read_loop_relay s cli game buffer payload hb hturn hover hne, htake,
    c_str_of_no_zero payload hz]
  refine ⟨rfl, ?_, ?_, ?_⟩
  · show (store s.games game _ game).game_over = 1 ↔ _
    rw [store_same]
    by_cases hm : You_lose <:+: payload ∨ You_win <:+: payload
    · simp [hm]
    · simp [hm]
  · intro hm
    show (store s.games game _ game).game_over = 0
    rw [store_same]
    simp only [if_neg hm]
  · intro hm c buf pending
    unfold handle_read_loop
    have hov : (store s.games game
        ({ player1 := (s.games game).player1, player2 := (s.games game).player2,
           turn := if (s.heap cli).player_number = 1 then 2 else 1,
           game_over := if You_lose <:+: payload ∨ You_win <:+: payload then 1 else 0 } :
          game_t) game).game_over ≠ 0 := by
      rw [store_same]
      simp only [if_pos hm]
      decide
    simp only [if_pos hov]

/-- C4, instance: player 1 of the example session sends `"You win"`, which ends the
game, or `"B3"`, which does not. -/
theorem relay_ends_on_marker_witness :
    (example_buffer.length = BUF_SIZE ∧
      (playing.games 0).turn = (playing.heap 0).player_number ∧
      (playing.games 0).game_over = 0 ∧ 1 ≤ You_win.length ∧
      You_win.length ≤ BUF_SIZE - 1 ∧ ∀ b ∈ You_win, b ≠ 0) ∧
    ((handle_read_loop playing 0 0 example_buffer (some You_win)).1.games 0).game_over = 1 ∧
    ((handle_read_loop playing 0 0 example_buffer (some [66, 51])).1.games 0).game_over
      = 0 :=
  ⟨⟨List.length_replicate _ _, by decide, by decide, by decide, by decide, by decide⟩,
    (relay_ends_on_marker playing 0 0 example_buffer You_win (List.length_replicate _ _)
      (by decide) (by decide) (by decide) (by decide) (by decide)).2.1.2
      (Or.inr (List.infix_refl _)),
    (relay_ends_on_marker playing 0 0 example_buffer [66, 51] (List.length_replicate _ _)
      (by decide) (by decide) (by decide) (by decide) (by decide)).2.2.1 (by decide)⟩

/-- C5: in a pass of the relay loop in which it is the client's turn, when the read
returns `rcount <= 0` (an error, or 0 bytes), `game_over` is set to 1, nothing is
written to any socket, `turn` is as before, and the loop is left by `break`. -/
theorem read_failure_ends_session (s : Server) (cli game : Nat) (buffer : List Nat)
    (pending : Option (List Nat))
    (hturn : (s.games game).turn = (s.heap cli).player_number)
    (hover : (s.games game).game_over = 0)
    (hrd : (read pending buffer (BUF_SIZE - 1)).1 ≤ 0) :
    ((handle_read_loop s cli game buffer pending).1.games game).game_over = 1 ∧
    (handle_read_loop s cli game buffer pending).1.out = s.out ∧
    ((handle_read_loop s cli game buffer pending).1.games game).turn
      = (s.games game).turn ∧
    (handle_read_loop s cli game buffer pending).2.2 = Outcome.disconnected ∧
    (handle_read_loop s cli game buffer pending).2.2.leaves_loop = true := by
  rw [handle_read_loop_disconnect s cli game buffer pending hturn hover hrd]
  refine ⟨?_, rfl, ?_, rfl, rfl⟩
  · show (store s.games game _ game).game_over = 1
    rw [store_same]
  · show (store s.games game _ game).turn = _
    rw [store_same]

/-- C5, instance: the read of player 1 of the example session fails. -/
theorem read_failure_ends_session_witness :
    ((playing.games 0).turn = (playing.heap 0).player_number ∧
      (playing.games 0).game_over = 0 ∧
      (read none example_buffer (BUF_SIZE - 1)).1 ≤ 0) ∧
    (((handle_read_loop playing 0 0 example_buffer none).1.games 0).game_over = 1 ∧
      (handle_read_loop playing 0 0 example_buffer none).1.out = playing.out ∧
      ((handle_read_loop playing 0 0 example_buffer none).1.games 0).turn
        = (playing.games 0).turn ∧
      (handle_read_loop playing 0 0 example_buffer none).2.2 = Outcome.disconnected ∧
      (handle_read_loop playing 0 0 example_buffer none).2.2.leaves_loop = true) :=
  ⟨by decide,
    read_failure_ends_session playing 0 0 example_buffer none (by decide) (by decide)
      (by decide)⟩

/-! ## Turn order of a session -/

theorem handle_read_loop_heap (s : Server) (cli game : Nat) (buffer : List Nat)
    (pending : Option (List Nat)) :
    (handle_read_loop s cli game buffer pending).1.heap = s.heap := by
  unfold handle_read_loop
  by_cases h1 : (s.games game).game_over ≠ 0
  · simp only [if_pos h1]
  · by_cases h2 : (s.games game).turn = (s.heap cli).player_number ∧
        (s.games game).game_over = 0
    · by_cases h3 : (read pending buffer (BUF_SIZE - 1)).1 ≤ 0
      · simp only [if_neg h1, if_pos h2, if_pos h3]
      · simp only [if_neg h1, if_pos h2, if_neg h3]
    · simp only [if_neg h1, if_neg h2]

/-- What a pass does to `turn`: a pass that reads needs the turn, a pass that relays
hands the turn over, and any other pass leaves it. -/
theorem handle_read_loop_turn (s : Server) (cli game : Nat) (buffer : List Nat)
    (pending : Option (List Nat)) :
    (((handle_read_loop s cli game buffer pending).2.2 = Outcome.relayed ∨
        (handle_read_loop s cli game buffer pending).2.2 = Outcome.disconnected) →
      (s.games game).turn = (s.heap cli).player_number ∧ (s.games game).game_over = 0) ∧
    ((handle_read_loop s cli game buffer pending).2.2 = Outcome.relayed →
      ((handle_read_loop s cli game buffer pending).1.games game).turn
        = if (s.heap cli).player_number = 1 then 2 else 1) ∧
    ((handle_read_loop s cli game buffer pending).2.2 ≠ Outcome.relayed →
      ((handle_read_loop s cli game buffer pending).1.games game).turn
        = (s.games game).turn) := by
  unfold handle_read_loop
  by_cases h1 : (s.games game).game_over ≠ 0
  · simp only [if_pos h1]
    simp
  · by_cases h2 : (s.games game).turn = (s.heap cli).player_number ∧
        (s.games game).game_over = 0
    · by_cases h3 : (read pending buffer (BUF_SIZE - 1)).1 ≤ 0
      · simp only [if_neg h1, if_pos h2, if_pos h3]
        simp [store, h2]
      · simp only [if_neg h1, if_pos h2, if_neg h3]
        simp [store, h2]
    · simp only [if_neg h1, if_neg h2]
      simp

theorem relay_trace_alternating (game c1 c2 : Nat) :
    ∀ (sched : List (Bool × Option (List Nat))) (s : Server) (b1 b2 : List Nat),
      (s.heap c1).player_number = 1 → (s.heap c2).player_number = 2 →
      ((s.games game).turn = 1 →
        alternating c1 c2 (relay_trace game c1 c2 sched s b1 b2)) ∧
      ((s.games game).turn = 2 →
        alternating c2 c1 (relay_trace game c1 c2 sched s b1 b2)) := by
  intro sched
  induction sched with
  | nil => intro s b1 b2 _ _; simp [relay_trace, alternating]
  | cons item rest ih =>
    intro s b1 b2 hp1 hp2
    obtain ⟨who, pending⟩ := item
    have hheap := handle_read_loop_heap s (if who then c2 else c1) game
      (if who then b2 else b1) pending
    obtain ⟨hguard, hflip, hkeep⟩ := handle_read_loop_turn s (if who then c2 else c1) game
      (if who then b2 else b1) pending
    have ih' := ih (handle_read_loop s (if who then c2 else c1) game
      (if who then b2 else b1) pending).1
      (if who then b1 else (handle_read_loop s (if who then c2 else c1) game
        (if who then b2 else b1) pending).2.1)
      (if who then (handle_read_loop s (if who then c2 else c1) game
        (if who then b2 else b1) pending).2.1 else b2)
      (by rw [hheap]; exact hp1) (by rw [hheap]; exact hp2)
    by_cases hrel : (handle_read_loop s (if who then c2 else c1) game
        (if who then b2 else b1) pending).2.2 = Outcome.relayed
    · have hg := (hguard (Or.inl hrel)).1
      have hf := hflip hrel
      simp only [relay_trace, if_pos hrel]
      cases who with
      | true =>
        simp only [if_true] at hg hf ih' ⊢
        rw [hp2] at hg hf
        constructor
        · intro ht
          rw [ht] at hg
          exact absurd hg (by decide)
        · intro _
          exact ⟨rfl, ih'.1 (by rw [hf]; decide)⟩
      | false =>
        simp only [Bool.false_eq_true, if_false] at hg hf ih' ⊢
        rw [hp1] at hg hf
        constructor
        · intro _
          exact ⟨rfl, ih'.2 (by rw [hf]; decide)⟩
        · intro ht
          rw [ht] at hg
          exact absurd hg (by decide)
    · have hk := hkeep hrel
      simp only [relay_trace, if_neg hrel]
      rw [hk] at ih'
      exact ih'

theorem alternating_get :
    ∀ (l : List Nat) (a b : Nat), alternating a b l →
      ∀ i, i < l.length → l[i]? = some (if i % 2 = 0 then a else b) := by
  intro l
  induction l with
  | nil => intro a b _ i hi; simp at hi
  | cons x rest ih =>
    intro a b h i hi
    obtain ⟨hx, hrest⟩ := h
    cases i with
    | zero => simp [hx]
    | succ j =>
      have hj : j < rest.length := by simpa using hi
      rw [List.getElem?_cons_succ, ih b a hrest j hj]
      by_cases hpar : j % 2 = 0
      · have : (j + 1) % 2 ≠ 0 := by omega
        simp [hpar, this]
      · have : (j + 1) % 2 = 0 := by omega
        simp [hpar, this]

/-- C2: a session that `create_game` starts has `turn` 1 and `game_over` 0, its
`player1` has `player_number` 1 and its `player2` has `player_number` 2.  A pass of the
relay loop reads from the client's socket only when `turn` equals its `player_number`
and `game_over` is 0, and a pass that relays a payload sets `turn` to the number of the
other player.  So under every schedule of the two reader threads and every data on the
sockets, the relays of the session alternate, starting with player 1: relay number
`i + 1` is by player 1 when `i` is even and by player 2 when `i` is odd. -/
theorem relays_alternate (s0 : Server) (cli w : Nat)
    (hw : create_game_scan s0.heap (s0.heap cli).sockfd s0.clients = some w)
    (sched : List (Bool × Option (List Nat))) (b1 b2 : List Nat) :
    ((create_game s0 cli true).games s0.ngames).player1 = w ∧
    ((create_game s0 cli true).games s0.ngames).player2 = cli ∧
    ((create_game s0 cli true).games s0.ngames).turn = 1 ∧
    ((create_game s0 cli true).games s0.ngames).game_over = 0 ∧
    ((create_game s0 cli true).heap w).player_number = 1 ∧
    ((create_game s0 cli true).heap cli).player_number = 2 ∧
    (∀ (t : Server) (c g : Nat) (buf : List Nat) (pending : Option (List Nat)),
      ((handle_read_loop t c g buf pending).2.2 = Outcome.relayed ∨
        (handle_read_loop t c g buf pending).2.2 = Outcome.disconnected) →
      (t.games g).turn = (t.heap c).player_number ∧ (t.games g).game_over = 0) ∧
    (∀ (t : Server) (c g : Nat) (buf : List Nat) (pending : Option (List Nat)),
      (handle_read_loop t c g buf pending).2.2 = Outcome.relayed →
      ((handle_read_loop t c g buf pending).1.games g).turn
        = if (t.heap c).player_number = 1 then 2 else 1) ∧
    (∀ i, i < (relay_trace s0.ngames w cli sched (create_game s0 cli true) b1 b2).length →
      (relay_trace s0.ngames w cli sched (create_game s0 cli true) b1 b2)[i]?
        = some (if i % 2 = 0 then w else cli)) := by
  have hspec := create_game_scan_spec s0.heap (s0.heap cli).sockfd s0.clients
  rw [hw] at hspec
  obtain ⟨_, _, _, h2, _⟩ := hspec
  have hne : w ≠ cli := by
    intro hc
    have h2' := (is_waiting_iff _ _ _).1 h2
    rw [hc] at h2'
    exact h2'.2 rfl
  have hgame : (create_game s0 cli true).games s0.ngames = ⟨w, cli, 1, 0⟩ := by
    rw [create_game_some s0 cli w hw]
    exact store_same _ _ _
  have hpw : ((create_game s0 cli true).heap w).player_number = 1 := by
    rw [create_game_some s0 cli w hw]
    show (pair_clients s0.heap w cli s0.ngames w).player_number = 1
    rw [pair_clients_waiting _ _ _ _ hne]
  have hpc : ((create_game s0 cli true).heap cli).player_number = 2 := by
    rw [create_game_some s0 cli w hw]
    show (pair_clients s0.heap w cli s0.ngames cli).player_number = 2
    rw [pair_clients_cli]
  refine ⟨by rw [hgame], by rw [hgame], by rw [hgame], by rw [hgame], hpw, hpc,
    fun t c g buf pending => (handle_read_loop_turn t c g buf pending).1,
    fun t c g buf pending => (handle_read_loop_turn t c g buf pending).2.1, ?_⟩
  have halt := (relay_trace_alternating s0.ngames w cli sched (create_game s0 cli true)
    b1 b2 hpw hpc).1 (by rw [hgame])
  exact alternating_get _ w cli halt

/-- C2, instance: under the example schedule the example session has three relays, by
player 1 (address 0), player 2 (address 1) and player 1 again. -/
theorem relays_alternate_witness :
    create_game_scan two_waiting.heap (two_waiting.heap 1).sockfd two_waiting.clients
      = some 0 ∧
    relay_trace two_waiting.ngames 0 1 example_schedule (create_game two_waiting 1 true)
      example_buffer example_buffer = [0, 1, 0] ∧
    (∀ i, i < (relay_trace two_waiting.ngames 0 1 example_schedule
        (create_game two_waiting 1 true) example_buffer example_buffer).length →
      (relay_trace two_waiting.ngames 0 1 example_schedule
        (create_game two_waiting 1 true) example_buffer example_buffer)[i]?
        = some (if i % 2 = 0 then 0 else 1)) :=
  ⟨by decide, by decide,
    (relays_alternate two_waiting 1 0 (by decide) example_schedule example_buffer
      example_buffer).2.2.2.2.2.2.2.2⟩

end Battleship
